import Mathlib

/-!
# Loan management service: in-memory backend

A shallow embedding of `src/index.js` running in memory mode (`isMemoryMode = true`, the
mode the test-suite forces), followed by theorems about its request handlers.

Modelling conventions
* The store `memoryStore` is a record of three lists; `push` appends at the end.
* Every handler is a pure function from the store and the request inputs to the new store
  and the response (status code and JSON body).
* Headers and the `:id` route parameter are strings, as Express delivers them; an absent
  header is `none`.  `parseInt(_, 10)` is modelled by `parseInt`, with `none` for `NaN`.
* Body fields carry the types of the data model: `name`, `email`, `password`, `action`
  are optional strings, `amount` and `term_months` optional numbers.  JavaScript numbers
  are modelled as exact rationals, which agrees with IEEE doubles on the comparisons the
  code makes for every finite double; ids are natural numbers.
* `new Date().toISOString()` is an input `now` of the handlers that read the clock.
* The three creating handlers compute the new id with `Math.max(...ids)`, which throws
  when the array is longer than the engine accepts as arguments of one call; the handler
  catches the throw and answers 500.  That bound is an input `limit` of these handlers
  and of everything built on them.
-/

namespace LoanManagement

/-! ## JavaScript primitives used by the handlers -/

/-- White space and line terminators skipped by `parseInt` (ECMAScript `StrWhiteSpaceChar`). -/
def isStrWhiteSpaceChar (c : Char) : Bool :=
  let n := c.toNat
  n == 0x09 || n == 0x0A || n == 0x0B || n == 0x0C || n == 0x0D || n == 0x20 ||
  n == 0xA0 || n == 0x1680 || (0x2000 ≤ n && n ≤ 0x200A) || n == 0x2028 ||
  n == 0x2029 || n == 0x202F || n == 0x205F || n == 0x3000 || n == 0xFEFF

/-- Value of a run of decimal digits, most significant first. -/
def digitsValue (ds : List Char) : Nat :=
  ds.foldl (fun acc c => 10 * acc + (c.toNat - 48)) 0

/-- The builtin `parseInt(s, 10)`: skip leading white space, read an optional sign and the
longest run of decimal digits; `none` stands for `NaN` (no digit read). -/
def parseInt (s : String) : Option Int :=
  let cs := s.toList.dropWhile isStrWhiteSpaceChar
  let signed : Bool × List Char :=
    match cs with
    | '-' :: r => (true, r)
    | '+' :: r => (false, r)
    | _ => (false, cs)
  let ds := signed.2.takeWhile Char.isDigit
  if ds.isEmpty then none
  else if signed.1 then some (-(digitsValue ds : Int))
  else some (digitsValue ds : Int)

/-- Truthiness of an optional string: `undefined` and the empty string are falsy. -/
def truthyStr : Option String → Bool
  | none => false
  | some v => v != ""

/-- Truthiness of an optional number: `undefined` and `0` are falsy. -/
def truthyNum : Option ℚ → Bool
  | none => false
  | some v => v != 0

/-! ## Data model -/

/-- Loan status, the three strings the code writes. -/
inductive Status where
  | pending
  | approved
  | rejected
  deriving DecidableEq

/-- A record of `memoryStore.users`. -/
structure User where
  id : Nat
  name : String
  email : String
  password : String
  is_admin : Nat
  created_at : String
  deriving DecidableEq

/-- A record of `memoryStore.loans`. -/
structure Loan where
  id : Nat
  user_id : Nat
  amount : ℚ
  term_months : ℚ
  status : Status
  decision_by : Option Nat
  decision_at : Option String
  created_at : String
  deriving DecidableEq

/-- A record of `memoryStore.repayments`. -/
structure Repayment where
  id : Nat
  loan_id : Int
  amount : ℚ
  paid_at : String
  deriving DecidableEq

/-- The in-memory store. -/
structure MemoryStore where
  users : List User
  loans : List Loan
  repayments : List Repayment
  deriving DecidableEq

/-- The store at process start. -/
def memoryStore : MemoryStore :=
  { users := [], loans := [], repayments := [] }

/-- A row of the admin listing: the loan spread with the applicant fields, which are
`undefined` (`none`) when no user has the loan owner id. -/
structure LoanWithApplicant where
  loan : Loan
  applicant_name : Option String
  applicant_email : Option String
  deriving DecidableEq

/-- JSON bodies the handlers send. -/
inductive Body where
  | error (msg : String)
  | registered (id : Nat) (name email : String)
  | loggedIn (id : Nat) (name email : String) (is_admin : Nat)
  | loanCreated (id : Nat) (status : Status)
  | loans (rows : List Loan)
  | loansWithApplicant (rows : List LoanWithApplicant)
  | decided (id : Nat) (status : Status)
  | repaymentRecorded (id : Nat) (loan_id : String) (amount : ℚ)
  | repayments (rows : List Repayment)
  deriving DecidableEq

/-- An HTTP response: status code and JSON body. -/
structure Response where
  status : Nat
  body : Body
  deriving DecidableEq

/-! ## Helpers of the handlers -/

/-- The id expression `(xs.length > 0 ? Math.max(...ids) : 0) + 1`.  The spread call
`Math.max(...ids)` passes every element as an argument of its own and throws a
`RangeError` when the array holds more elements than the engine accepts as arguments of
one call.  That bound depends on the engine and is not fixed by the repository, so it is
the parameter `limit`; `none` stands for the throw. -/
def nextId (limit : Nat) (ids : List Nat) : Option Nat :=
  if ids.length > 0 then
    if ids.length ≤ limit then some (ids.foldl max 0 + 1) else none
  else some 1

/-- The helper `getUserFromHeader` in memory mode, given the `X-User-Id` header. -/
def getUserFromHeader (s : MemoryStore) (xUserId : Option String) : Option User :=
  match xUserId with
  | none => none
  | some userId =>
    if userId == "" then none
    else s.users.find? (fun u => decide (some (u.id : Int) = parseInt userId))

/-- Truthiness of `user && user.is_admin` (also of `user?.is_admin`). -/
def userIsAdmin : Option User → Bool
  | none => false
  | some u => u.is_admin != 0

/-- In-place update of the first loan satisfying `p`, the object `find` returns. -/
def updateFirstLoan (p : Loan → Bool) (f : Loan → Loan) : List Loan → List Loan
  | [] => []
  | l :: ls => if p l then f l :: ls else l :: updateFirstLoan p f ls

/-- The predicate `l => l.id === parseInt(id, 10)` on the route parameter `id`. -/
def isLoan (id : String) (l : Loan) : Bool :=
  decide (some (l.id : Int) = parseInt id)

/-- The lookup `memoryStore.loans.find(l => l.id === parseInt(id, 10))`. -/
def findLoan (s : MemoryStore) (id : String) : Option Loan :=
  s.loans.find? (isLoan id)

/-! ## Request handlers -/

/-- Handler of `POST /api/register`.  A throw of the id expression is caught by the
handler and answered 500, before anything is pushed. -/
def postRegister (limit : Nat) (s : MemoryStore) (name email password : Option String)
    (now : String) : MemoryStore × Response :=
  match name, email, password with
  | some n, some e, some p =>
    if !truthyStr name || !truthyStr email || !truthyStr password then
      (s, ⟨400, .error "name,email,password required"⟩)
    else if (s.users.find? (fun u => u.email == e)).isSome then
      (s, ⟨400, .error "Email already registered"⟩)
    else
      match nextId limit (s.users.map User.id) with
      | none => (s, ⟨500, .error "Failed to register user"⟩)
      | some id =>
        let user : User :=
          { id := id, name := n, email := e, password := p, is_admin := 0,
            created_at := now }
        ({ s with users := s.users ++ [user] }, ⟨201, .registered id n e⟩)
  | _, _, _ => (s, ⟨400, .error "name,email,password required"⟩)

/-- Handler of `POST /api/login`. -/
def postLogin (s : MemoryStore) (email password : Option String) : MemoryStore × Response :=
  match email, password with
  | some e, some p =>
    if !truthyStr email || !truthyStr password then
      (s, ⟨400, .error "email,password required"⟩)
    else
      match s.users.find? (fun u => u.email == e && u.password == p) with
      | none => (s, ⟨401, .error "Invalid credentials"⟩)
      | some user => (s, ⟨200, .loggedIn user.id user.name user.email user.is_admin⟩)
  | _, _ => (s, ⟨400, .error "email,password required"⟩)

/-- Handler of `POST /api/loans`.  A throw of the id expression is caught by the handler
and answered 500, before anything is pushed. -/
def postLoans (limit : Nat) (s : MemoryStore) (xUserId : Option String)
    (amount term_months : Option ℚ)
    (now : String) : MemoryStore × Response :=
  match getUserFromHeader s xUserId with
  | none => (s, ⟨401, .error "Missing X-User-Id header for authentication"⟩)
  | some user =>
    match amount, term_months with
    | some a, some t =>
      if !truthyNum amount || !truthyNum term_months then
        (s, ⟨400, .error "amount and term_months required"⟩)
      else if a ≤ 0 || a > 1000000 then
        (s, ⟨400, .error "Invalid loan amount"⟩)
      else
        match nextId limit (s.loans.map Loan.id) with
        | none => (s, ⟨500, .error "Failed to create loan"⟩)
        | some id =>
          let loan : Loan :=
            { id := id, user_id := user.id, amount := a, term_months := t,
              status := .pending, decision_by := none, decision_at := none,
              created_at := now }
          ({ s with loans := s.loans ++ [loan] }, ⟨201, .loanCreated id .pending⟩)
    | _, _ => (s, ⟨400, .error "amount and term_months required"⟩)

/-- The admin listing: every loan spread with the name and email of the first user
whose id is the owner id of the loan. -/
def loansWithApplicant (s : MemoryStore) : List LoanWithApplicant :=
  s.loans.map (fun loan =>
    let applicant := s.users.find? (fun u => u.id == loan.user_id)
    { loan := loan, applicant_name := applicant.map User.name,
      applicant_email := applicant.map User.email })

/-- Handler of `GET /api/loans`.  Reading `user.id` of a null user throws, which the
handler catches and answers with 500; the guard before it excludes that case. -/
def getLoans (s : MemoryStore) (xUserId xAdmin : Option String) : MemoryStore × Response :=
  let user := getUserFromHeader s xUserId
  let isAdminHeader := decide (xAdmin = some "true")
  if user.isNone && !isAdminHeader then (s, ⟨401, .error "Missing auth headers"⟩)
  else if isAdminHeader || userIsAdmin user then
    (s, ⟨200, .loansWithApplicant (loansWithApplicant s)⟩)
  else
    match user with
    | some u => (s, ⟨200, .loans (s.loans.filter (fun l => l.user_id == u.id))⟩)
    | none => (s, ⟨500, .error "Failed to list loans"⟩)

/-- The assignments of the decision handler to the loan it found. -/
def applyDecision (status : Status) (decisionBy : Option Nat) (now : String) (l : Loan) :
    Loan :=
  { l with status := status, decision_by := decisionBy, decision_at := some now }

/-- Handler of `POST /api/loans/:id/decision`.  Reading `user.id` of a null user throws,
which the handler catches and answers with 500; the guard before it excludes that case. -/
def postLoanDecision (s : MemoryStore) (xUserId xAdmin : Option String) (id : String)
    (action : Option String) (now : String) : MemoryStore × Response :=
  let isAdminHeader := decide (xAdmin = some "true")
  let user := getUserFromHeader s xUserId
  if !isAdminHeader && !userIsAdmin user then
    (s, ⟨403, .error "Admin header required"⟩)
  else if !(action == some "approve" || action == some "reject") then
    (s, ⟨400, .error "Invalid action"⟩)
  else
    let status : Status := if action == some "approve" then .approved else .rejected
    let decisionBy : Option (Option Nat) :=
      if isAdminHeader then some none
      else match user with
        | some u => some (some u.id)
        | none => none
    match decisionBy with
    | none => (s, ⟨500, .error "Failed to update decision"⟩)
    | some by_ =>
      match findLoan s id with
      | none => (s, ⟨404, .error "Loan not found"⟩)
      | some loan =>
        let loans := updateFirstLoan (isLoan id) (applyDecision status by_ now) s.loans
        ({ s with loans := loans }, ⟨200, .decided loan.id status⟩)

/-- Handler of `POST /api/loans/:id/repayment`.  The stored `loan_id` is
`parseInt(id, 10)`, which on this path is the id of the loan `find` matched
(`parseInt_eq_of_find`), so the record is built from `loan.id`.  A throw of the id
expression is caught by the handler and answered 500, before anything is pushed. -/
def postLoanRepayment (limit : Nat) (s : MemoryStore) (xUserId : Option String) (id : String)
    (amount : Option ℚ) (now : String) : MemoryStore × Response :=
  match getUserFromHeader s xUserId with
  | none => (s, ⟨401, .error "Missing X-User-Id header for authentication"⟩)
  | some user =>
    match amount with
    | none => (s, ⟨400, .error "Invalid repayment amount"⟩)
    | some a =>
      if !truthyNum amount || a ≤ 0 then
        (s, ⟨400, .error "Invalid repayment amount"⟩)
      else
        match findLoan s id with
        | none => (s, ⟨404, .error "Loan not found"⟩)
        | some loan =>
          if loan.user_id != user.id && !(user.is_admin != 0) then
            (s, ⟨403, .error "Not authorized for this loan"⟩)
          else
            match nextId limit (s.repayments.map Repayment.id) with
            | none => (s, ⟨500, .error "Failed to record repayment"⟩)
            | some repayId =>
              let repayment : Repayment :=
                { id := repayId, loan_id := (loan.id : Int), amount := a, paid_at := now }
              ({ s with repayments := s.repayments ++ [repayment] },
                ⟨201, .repaymentRecorded repayId id a⟩)

/-- Handler of `GET /api/loans/:id/repayments`. -/
def getLoanRepayments (s : MemoryStore) (xUserId : Option String) (id : String) :
    MemoryStore × Response :=
  match getUserFromHeader s xUserId with
  | none => (s, ⟨401, .error "Missing X-User-Id header for authentication"⟩)
  | some _ =>
    (s, ⟨200, .repayments
      (s.repayments.filter (fun r => decide (some r.loan_id = parseInt id)))⟩)

/-! ## The service as a transition system -/

/-- A request to the service, with the clock reading where the handler takes one. -/
inductive Request where
  | register (name email password : Option String) (now : String)
  | login (email password : Option String)
  | submitLoan (xUserId : Option String) (amount term_months : Option ℚ) (now : String)
  | listLoans (xUserId xAdmin : Option String)
  | decision (xUserId xAdmin : Option String) (id : String) (action : Option String)
      (now : String)
  | repayment (xUserId : Option String) (id : String) (amount : Option ℚ) (now : String)
  | listRepayments (xUserId : Option String) (id : String)

/-- Dispatch of a request to its handler, on an engine with argument bound `limit`. -/
def handle (limit : Nat) (s : MemoryStore) : Request → MemoryStore × Response
  | .register name email password now => postRegister limit s name email password now
  | .login email password => postLogin s email password
  | .submitLoan xUserId amount term_months now =>
    postLoans limit s xUserId amount term_months now
  | .listLoans xUserId xAdmin => getLoans s xUserId xAdmin
  | .decision xUserId xAdmin id action now => postLoanDecision s xUserId xAdmin id action now
  | .repayment xUserId id amount now => postLoanRepayment limit s xUserId id amount now
  | .listRepayments xUserId id => getLoanRepayments s xUserId id

/-- The store after serving a sequence of requests in order. -/
def run (limit : Nat) (s : MemoryStore) (rs : List Request) : MemoryStore :=
  rs.foldl (fun st r => (handle limit st r).1) s

/-- Stores the service can be in: the initial store and whatever a request leaves. -/
inductive Reachable (limit : Nat) : MemoryStore → Prop where
  | init : Reachable limit memoryStore
  | step (s : MemoryStore) (r : Request) :
    Reachable limit s → Reachable limit (handle limit s r).1

/-- The argument bound used in the worked examples below; a run from the initial store
ends in the same store under every bound of at least its number of requests
(`run_eq_sample`). -/
def sampleLimit : Nat := 100000

/-! ## Sample stores and requests -/

/-- A non-admin applicant. -/
def alice : User :=
  { id := 1, name := "Alice", email := "alice@example.com", password := "pass123",
    is_admin := 0, created_at := "2024-01-01T00:00:00.000Z" }

/-- A second non-admin applicant. -/
def bob : User :=
  { id := 2, name := "Bob", email := "bob@example.com", password := "pass456",
    is_admin := 0, created_at := "2024-01-02T00:00:00.000Z" }

/-- A user record with the admin flag set. -/
def carol : User :=
  { id := 3, name := "Carol", email := "carol@example.com", password := "pass789",
    is_admin := 1, created_at := "2024-01-03T00:00:00.000Z" }

/-- A pending loan of `alice`. -/
def aliceLoan : Loan :=
  { id := 1, user_id := 1, amount := 50000, term_months := 12, status := .pending,
    decision_by := none, decision_at := none, created_at := "2024-01-04T00:00:00.000Z" }

/-- A store with three users and one pending loan. -/
def sampleStore : MemoryStore :=
  { users := [alice, bob, carol], loans := [aliceLoan], repayments := [] }

/-- Registration of one applicant on the initial store. -/
def registerAlice : Request :=
  .register (some "Alice") (some "alice@example.com") (some "pass123")
    "2024-01-01T00:00:00.000Z"

/-- Registration of a second applicant. -/
def registerBob : Request :=
  .register (some "Bob") (some "bob@example.com") (some "pass456")
    "2024-01-02T00:00:00.000Z"

/-- Register one applicant, who submits two loans and pays twice on the first. -/
def twoLoansTwoRepayments : List Request :=
  [ registerAlice,
    .submitLoan (some "1") (some 25000) (some 6) "2024-01-04T00:00:00.000Z",
    .submitLoan (some "1") (some 50000) (some 12) "2024-01-05T00:00:00.000Z",
    .repayment (some "1") "1" (some 10000) "2024-01-06T00:00:00.000Z",
    .repayment (some "1") "1" (some 5000) "2024-01-07T00:00:00.000Z" ]

/-- The loan record `POST /api/loans` pushes for a resolved user, given the new id. -/
def newLoan (id : Nat) (user : User) (a t : ℚ) (now : String) : Loan :=
  { id := id, user_id := user.id, amount := a, term_months := t,
    status := .pending, decision_by := none, decision_at := none, created_at := now }

/-- The repayment record `POST /api/loans/:id/repayment` pushes for the loan it found,
given the new id. -/
def newRepayment (id : Nat) (loan : Loan) (a : ℚ) (now : String) : Repayment :=
  { id := id, loan_id := (loan.id : Int), amount := a, paid_at := now }

/-- Registration, one submission of 50000 over 12 months, approval by the admin flag. -/
def approvedLoanScenario : List Request :=
  [ .register (some "A") (some "a@x.com") (some "p") "2024-03-01T00:00:00.000Z",
    .submitLoan (some "1") (some 50000) (some 12) "2024-03-02T00:00:00.000Z",
    .decision none (some "true") "1" (some "approve") "2024-03-03T00:00:00.000Z" ]

/-- The status the decision handler writes: `action === 'approve' ? 'approved' : 'rejected'`. -/
def decisionStatus (action : Option String) : Status :=
  if action = some "approve" then .approved else .rejected

/-- The value `isAdminHeader ? null : user.id` the decision handler writes to
`decision_by`, for a request that passed the admin guard. -/
def decisionBy (s : MemoryStore) (xUserId xAdmin : Option String) : Option Nat :=
  if xAdmin = some "true" then none else (getUserFromHeader s xUserId).map User.id

/-- The store after the decision handler has written to the loan it found. -/
def decidedStore (s : MemoryStore) (xUserId xAdmin : Option String) (id : String)
    (action : Option String) (now : String) : MemoryStore :=
  { s with loans := (updateFirstLoan (isLoan id)
      (applyDecision (decisionStatus action) (decisionBy s xUserId xAdmin) now) s.loans) }

/-- The loans carried by a listing body: the rows of the user listing, the loan part of
the rows of the admin listing, nothing for any other body. -/
def rowLoans : Body → List Loan
  | .loans rows => rows
  | .loansWithApplicant rows => rows.map LoanWithApplicant.loan
  | _ => []

/-- Whether a request is a decision whose route id denotes the loan id `n`. -/
def isDecisionOn (n : Nat) : Request → Bool
  | .decision _ _ id _ _ => decide (parseInt id = some (n : Int))
  | _ => false

/-- Requests after the approval of loan 1 of the sample store: another submission, a
decision on another route id, a repayment and two listings. -/
def afterApproval : List Request :=
  [ .submitLoan (some "2") (some 1000) (some 6) "2024-02-02T00:00:00.000Z",
    .decision none (some "true") "2" (some "reject") "2024-02-03T00:00:00.000Z",
    .repayment (some "1") "1" (some 100) "2024-02-04T00:00:00.000Z",
    .listLoans none (some "true"),
    .listRepayments (some "1") "1" ]

/-- The user record created by the first request of `approvedLoanScenario`. -/
def userA : User :=
  { id := 1, name := "A", email := "a@x.com", password := "p", is_admin := 0,
    created_at := "2024-03-01T00:00:00.000Z" }

/-- The loan of `approvedLoanScenario` once approved through the admin flag. -/
def approvedLoanA : Loan :=
  { id := 1, user_id := 1, amount := 50000, term_months := 12, status := .approved,
    decision_by := none, decision_at := some "2024-03-03T00:00:00.000Z",
    created_at := "2024-03-02T00:00:00.000Z" }

/-- Whether serving `r` on the store `s` is a decision answered 200 whose route id
denotes the loan id `n`. -/
def succeedsOn (limit : Nat) (s : MemoryStore) (r : Request) (n : Nat) : Bool :=
  isDecisionOn n r && decide ((handle limit s r).2.status = 200)

/-- Whether, while the requests are served in order from the store `s`, some decision on
the loan id `n` is answered 200. -/
def everDecided (limit : Nat) (s : MemoryStore) : List Request → Nat → Bool
  | [], _ => false
  | r :: rs, n => succeedsOn limit s r n || everDecided limit (handle limit s r).1 rs n

/-- Approval scenario followed by a second submission, which stays pending. -/
def approvedThenSubmitted : List Request :=
  approvedLoanScenario ++
    [ .submitLoan (some "1") (some 2000) (some 6) "2024-03-05T00:00:00.000Z" ]

/-- The pending loan created by the last request of `approvedThenSubmitted`. -/
def pendingLoanA : Loan :=
  { id := 2, user_id := 1, amount := 2000, term_months := 6, status := .pending,
    decision_by := none, decision_at := none, created_at := "2024-03-05T00:00:00.000Z" }

/-- Whether a request is a registration. -/
def isRegister : Request → Bool
  | .register _ _ _ _ => true
  | _ => false

/-- Whether a request records a repayment. -/
def isRepayment : Request → Bool
  | .repayment _ _ _ _ => true
  | _ => false

/-- Lexicographic order on character sequences by code point.  Timestamps written by
`toISOString` have one fixed layout, so this order on them is the chronological order. -/
def lexLe : List Char → List Char → Bool
  | [], _ => true
  | _ :: _, [] => false
  | a :: as, b :: bs => a.toNat < b.toNat || (a.toNat == b.toNat && lexLe as bs)

/-- The clause `ORDER BY created_at DESC` of the durable branch, on rows already selected:
a row created later comes before a row created earlier. -/
def orderByCreatedAtDesc (rows : List Loan) : List Loan :=
  rows.insertionSort (fun a b => lexLe b.created_at.toList a.created_at.toList = true)

/-- The query of the durable branch of `GET /api/loans` for a non-admin caller,
`SELECT * FROM loans WHERE user_id = ? ORDER BY created_at DESC`, over a loans table
holding the rows `table`. -/
def selectLoansByUser (table : List Loan) (uid : Nat) : List Loan :=
  orderByCreatedAtDesc (table.filter (fun l => l.user_id == uid))

/-- A deliberately small argument bound, so that a store beyond the bound can be written
down and evaluated; real engines have a bound on the order of a hundred thousand. -/
def tinyLimit : Nat := 2

/-- One registration, three submissions and three repayments on loan 1 by user 1: with
the bound `tinyLimit` all of them succeed and leave three loans and three repayments,
one more than the bound. -/
def crowdingRequests : List Request :=
  [ registerAlice,
    .submitLoan (some "1") (some 25000) (some 6) "2024-01-04T00:00:00.000Z",
    .submitLoan (some "1") (some 50000) (some 12) "2024-01-05T00:00:00.000Z",
    .submitLoan (some "1") (some 75000) (some 24) "2024-01-06T00:00:00.000Z",
    .repayment (some "1") "1" (some 1000) "2024-01-07T00:00:00.000Z",
    .repayment (some "1") "1" (some 2000) "2024-01-08T00:00:00.000Z",
    .repayment (some "1") "1" (some 3000) "2024-01-09T00:00:00.000Z" ]

/-! ## Supporting lemmas -/

theorem parseInt_eq_of_find (s : MemoryStore) (id : String) (loan : Loan)
    (h : findLoan s id = some loan) : parseInt id = some (loan.id : Int) := by
  have hp := List.find?_some h
  simp only [isLoan, decide_eq_true_eq] at hp
  exact hp.symm

/-! ## Decisions are reserved to admin principals -/

/-- C1: when the `X-Admin` header is not the string true and the caller id resolves to no
user or to a user whose `is_admin` is falsy, the decision handler answers 403 and returns
the store it was given, so no loan changes status. -/
theorem decision_forbidden_of_not_admin (s : MemoryStore) (xUserId xAdmin : Option String)
    (id : String) (action : Option String) (now : String)
    (hflag : xAdmin ≠ some "true")
    (huser : getUserFromHeader s xUserId = none ∨
      ∃ u, getUserFromHeader s xUserId = some u ∧ u.is_admin = 0) :
    postLoanDecision s xUserId xAdmin id action now
      = (s, ⟨403, .error "Admin header required"⟩) := by
  have hadm : userIsAdmin (getUserFromHeader s xUserId) = false := by
    rcases huser with h | ⟨u, h, hu⟩
    · simp [h, userIsAdmin]
    · simp [h, userIsAdmin, hu]
  simp [postLoanDecision, hflag, hadm]

theorem decision_forbidden_of_not_admin_witness :
    (some "1" : Option String) ≠ some "true" ∧
    (getUserFromHeader sampleStore (some "1") = none ∨
      ∃ u, getUserFromHeader sampleStore (some "1") = some u ∧ u.is_admin = 0) ∧
    postLoanDecision sampleStore (some "1") (some "1") "1" (some "approve")
        "2024-02-01T00:00:00.000Z"
      = (sampleStore, ⟨403, .error "Admin header required"⟩) :=
  ⟨by decide, Or.inr ⟨alice, by decide, by decide⟩,
   decision_forbidden_of_not_admin sampleStore (some "1") (some "1") "1" (some "approve")
     "2024-02-01T00:00:00.000Z" (by decide) (Or.inr ⟨alice, by decide, by decide⟩)⟩

/-! ## Listing loans -/

theorem mem_loansWithApplicant (s : MemoryStore) (row : LoanWithApplicant)
    (h : row ∈ loansWithApplicant s) :
    row.loan ∈ s.loans ∧
    row.applicant_name
      = (s.users.find? (fun u => u.id == row.loan.user_id)).map User.name ∧
    row.applicant_email
      = (s.users.find? (fun u => u.id == row.loan.user_id)).map User.email := by
  simp only [loansWithApplicant, List.mem_map] at h
  obtain ⟨l, hl, rfl⟩ := h
  exact ⟨hl, rfl, rfl⟩

theorem loansWithApplicant_loans (s : MemoryStore) :
    (loansWithApplicant s).map LoanWithApplicant.loan = s.loans := by
  simp [loansWithApplicant, Function.comp_def]

/-- C6: a caller resolved to a user with `is_admin` falsy, without the admin flag, gets
exactly the stored loans whose `user_id` is the caller id; with the admin flag, or with a
resolved user whose `is_admin` is set, the answer has one row per stored loan, in store
order, carrying the name and email of the user found for the loan owner id (and no name
or email when there is none). -/
theorem getLoans_rows (s : MemoryStore) (xUserId xAdmin : Option String) :
    (∀ u, getUserFromHeader s xUserId = some u → u.is_admin = 0 → xAdmin ≠ some "true" →
      getLoans s xUserId xAdmin
          = (s, ⟨200, .loans (s.loans.filter (fun l => l.user_id == u.id))⟩) ∧
      ∀ l, l ∈ s.loans.filter (fun l => l.user_id == u.id)
          ↔ l ∈ s.loans ∧ l.user_id = u.id) ∧
    ((xAdmin = some "true" ∨ userIsAdmin (getUserFromHeader s xUserId) = true) →
      getLoans s xUserId xAdmin = (s, ⟨200, .loansWithApplicant (loansWithApplicant s)⟩) ∧
      (loansWithApplicant s).map LoanWithApplicant.loan = s.loans ∧
      ∀ row ∈ loansWithApplicant s,
        (∀ u, s.users.find? (fun u => u.id == row.loan.user_id) = some u →
          row.applicant_name = some u.name ∧ row.applicant_email = some u.email) ∧
        (s.users.find? (fun u => u.id == row.loan.user_id) = none →
          row.applicant_name = none ∧ row.applicant_email = none)) := by
  constructor
  · intro u hu hadm hflag
    refine ⟨?_, fun l => by simp [List.mem_filter]⟩
    simp [getLoans, hu, hflag, userIsAdmin, hadm]
  · intro h
    refine ⟨?_, loansWithApplicant_loans s, ?_⟩
    · rcases h with h | h
      · simp [getLoans, h]
      · cases hu : getUserFromHeader s xUserId with
        | none => simp [hu, userIsAdmin] at h
        | some u =>
          rw [hu] at h
          simp [getLoans, hu, h]
    · intro row hrow
      obtain ⟨_, hn, he⟩ := mem_loansWithApplicant s row hrow
      constructor
      · intro u hfind
        rw [hn, he, hfind]
        exact ⟨rfl, rfl⟩
      · intro hfind
        rw [hn, he, hfind]
        exact ⟨rfl, rfl⟩

theorem getLoans_rows_witness :
    getUserFromHeader sampleStore (some "1") = some alice ∧
    getLoans sampleStore (some "1") none = (sampleStore, ⟨200, .loans [aliceLoan]⟩) ∧
    getLoans sampleStore none (some "true")
      = (sampleStore, ⟨200, .loansWithApplicant
          [⟨aliceLoan, some "Alice", some "alice@example.com"⟩]⟩) :=
  ⟨by decide,
   ((getLoans_rows sampleStore (some "1") none).1 alice (by decide) (by decide)
     (by decide)).1,
   ((getLoans_rows sampleStore none (some "true")).2 (Or.inl rfl)).1⟩

/-! ## Login -/

theorem postLogin_of_find (s : MemoryStore) (e p : String) (he : e ≠ "") (hp : p ≠ "") :
    postLogin s (some e) (some p)
      = match s.users.find? (fun u => u.email == e && u.password == p) with
        | none => (s, ⟨401, .error "Invalid credentials"⟩)
        | some user => (s, ⟨200, .loggedIn user.id user.name user.email user.is_admin⟩) := by
  simp [postLogin, truthyStr, he, hp]

/-- C8: with a non-empty email and password, login answers 200 exactly when some stored
user has that email and that password, and 401 Invalid credentials otherwise; on success
the body carries the id, name, email and is_admin of a stored user with that email and
password (the first such user), and no password field. -/
theorem postLogin_iff (s : MemoryStore) (e p : String) (he : e ≠ "") (hp : p ≠ "") :
    ((postLogin s (some e) (some p)).2.status = 200
      ↔ ∃ u ∈ s.users, u.email = e ∧ u.password = p) ∧
    ((¬ ∃ u ∈ s.users, u.email = e ∧ u.password = p) →
      postLogin s (some e) (some p) = (s, ⟨401, .error "Invalid credentials"⟩)) ∧
    ((∃ u ∈ s.users, u.email = e ∧ u.password = p) →
      ∃ u ∈ s.users, u.email = e ∧ u.password = p ∧
        s.users.find? (fun u => u.email == e && u.password == p) = some u ∧
        postLogin s (some e) (some p)
          = (s, ⟨200, .loggedIn u.id u.name u.email u.is_admin⟩)) := by
  have hkey := postLogin_of_find s e p he hp
  cases hf : s.users.find? (fun u => u.email == e && u.password == p) with
  | none =>
    rw [hf] at hkey
    have hno : ¬ ∃ u ∈ s.users, u.email = e ∧ u.password = p := by
      rintro ⟨u, hu, h1, h2⟩
      have := List.find?_eq_none.mp hf u hu
      simp [h1, h2] at this
    refine ⟨?_, fun _ => hkey, fun h => absurd h hno⟩
    rw [hkey]
    exact ⟨fun h => by simp at h, fun h => absurd h hno⟩
  | some u =>
    rw [hf] at hkey
    have hmem : u ∈ s.users := List.mem_of_find?_eq_some hf
    have hmatch := List.find?_some hf
    simp only [Bool.and_eq_true, beq_iff_eq] at hmatch
    have hyes : ∃ u ∈ s.users, u.email = e ∧ u.password = p :=
      ⟨u, hmem, hmatch.1, hmatch.2⟩
    refine ⟨?_, fun h => absurd hyes h, fun _ => ⟨u, hmem, hmatch.1, hmatch.2, rfl, hkey⟩⟩
    rw [hkey]
    exact ⟨fun _ => hyes, fun _ => rfl⟩

theorem postLogin_iff_witness :
    ("bob@example.com" : String) ≠ "" ∧ ("pass456" : String) ≠ "" ∧
    ((postLogin sampleStore (some "bob@example.com") (some "pass456")).2.status = 200
      ↔ ∃ u ∈ sampleStore.users, u.email = "bob@example.com" ∧ u.password = "pass456") ∧
    postLogin sampleStore (some "bob@example.com") (some "pass456")
      = (sampleStore, ⟨200, .loggedIn 2 "Bob" "bob@example.com" 0⟩) :=
  ⟨by decide, by decide,
   (postLogin_iff sampleStore "bob@example.com" "pass456" (by decide) (by decide)).1,
   by decide⟩

/-! ## Registration and the uniqueness of emails -/

/-- C9: when a stored user already has the email of the request and the three fields are
present, registration answers 400 Email already registered and returns the store as
given, whatever the name and password. -/
theorem postRegister_duplicate (limit : Nat) (s : MemoryStore) (n e p now : String)
    (hn : n ≠ "") (he : e ≠ "") (hp : p ≠ "") (hdup : ∃ u ∈ s.users, u.email = e) :
    postRegister limit s (some n) (some e) (some p) now
      = (s, ⟨400, .error "Email already registered"⟩) := by
  obtain ⟨u, hu, hue⟩ := hdup
  have hsome : (s.users.find? (fun u => u.email == e)).isSome = true := by
    rw [List.find?_isSome]
    exact ⟨u, hu, by simp [hue]⟩
  simp [postRegister, truthyStr, hn, he, hp, hsome]

theorem postRegister_duplicate_witness :
    ("Alice2" : String) ≠ "" ∧ ("alice@example.com" : String) ≠ "" ∧
    ("pass456" : String) ≠ "" ∧
    (∃ u ∈ sampleStore.users, u.email = "alice@example.com") ∧
    postRegister sampleLimit sampleStore (some "Alice2") (some "alice@example.com") (some "pass456")
        "2024-02-01T00:00:00.000Z"
      = (sampleStore, ⟨400, .error "Email already registered"⟩) :=
  ⟨by decide, by decide, by decide, ⟨alice, by decide, by decide⟩,
   postRegister_duplicate sampleLimit sampleStore "Alice2" "alice@example.com" "pass456"
     "2024-02-01T00:00:00.000Z" (by decide) (by decide) (by decide)
     ⟨alice, by decide, by decide⟩⟩

/-- The users after a registration: the list as it was, or one record appended whose
email no stored user has. -/
theorem postRegister_users (limit : Nat) (s : MemoryStore)
    (name email password : Option String) (now : String) :
    (postRegister limit s name email password now).1.users = s.users ∨
    ∃ u, (postRegister limit s name email password now).1.users = s.users ++ [u] ∧
      ∀ v ∈ s.users, v.email ≠ u.email := by
  unfold postRegister
  split
  · rename_i n e p
    split
    · exact Or.inl rfl
    · split
      · exact Or.inl rfl
      · rename_i hfind
        split
        · exact Or.inl rfl
        · refine Or.inr ⟨_, rfl, ?_⟩
          intro v hv
          have hnone : s.users.find? (fun u => u.email == e) = none := by
            simpa using hfind
          have := List.find?_eq_none.mp hnone v hv
          simpa using this
  · exact Or.inl rfl

theorem updateFirstLoan_length (p : Loan → Bool) (f : Loan → Loan) (ls : List Loan) :
    (updateFirstLoan p f ls).length = ls.length := by
  induction ls with
  | nil => rfl
  | cons l ls ih =>
    unfold updateFirstLoan
    split <;> simp [ih]

theorem postLogin_store (s : MemoryStore) (email password : Option String) :
    (postLogin s email password).1 = s := by
  unfold postLogin
  repeat (first | rfl | split)

theorem postLoans_users (limit : Nat) (s : MemoryStore) (xUserId : Option String)
    (amount term_months : Option ℚ) (now : String) :
    (postLoans limit s xUserId amount term_months now).1.users = s.users := by
  unfold postLoans
  repeat (first | rfl | split)

theorem getLoans_store (s : MemoryStore) (xUserId xAdmin : Option String) :
    (getLoans s xUserId xAdmin).1 = s := by
  simp only [getLoans]
  repeat (first | rfl | split)

theorem postLoanDecision_users (s : MemoryStore) (xUserId xAdmin : Option String)
    (id : String) (action : Option String) (now : String) :
    (postLoanDecision s xUserId xAdmin id action now).1.users = s.users := by
  simp only [postLoanDecision]
  repeat (first | rfl | split)

theorem postLoanRepayment_users (limit : Nat) (s : MemoryStore) (xUserId : Option String)
    (id : String)
    (amount : Option ℚ) (now : String) :
    (postLoanRepayment limit s xUserId id amount now).1.users = s.users := by
  unfold postLoanRepayment
  repeat (first | rfl | split)

theorem getLoanRepayments_store (s : MemoryStore) (xUserId : Option String) (id : String) :
    (getLoanRepayments s xUserId id).1 = s := by
  unfold getLoanRepayments
  repeat (first | rfl | split)

/-- The users after any request: the list as it was, or one record appended whose email
no stored user has. -/
theorem handle_users (limit : Nat) (s : MemoryStore) (r : Request) :
    (handle limit s r).1.users = s.users ∨
    ∃ u, (handle limit s r).1.users = s.users ++ [u] ∧
      ∀ v ∈ s.users, v.email ≠ u.email := by
  cases r with
  | register name email password now => exact postRegister_users limit s name email password now
  | login email password => exact Or.inl (by simp [handle, postLogin_store])
  | submitLoan xUserId amount term_months now =>
    exact Or.inl (postLoans_users limit s xUserId amount term_months now)
  | listLoans xUserId xAdmin => exact Or.inl (by simp [handle, getLoans_store])
  | decision xUserId xAdmin id action now =>
    exact Or.inl (postLoanDecision_users s xUserId xAdmin id action now)
  | repayment xUserId id amount now =>
    exact Or.inl (postLoanRepayment_users limit s xUserId id amount now)
  | listRepayments xUserId id => exact Or.inl (by simp [handle, getLoanRepayments_store])

theorem reachable_run (limit : Nat) (s : MemoryStore) (rs : List Request) (h : Reachable limit s) :
    Reachable limit (run limit s rs) := by
  induction rs generalizing s with
  | nil => exact h
  | cons r rs ih => exact ih _ (Reachable.step s r h)

/-- C10: in every store reachable from the initial store, any two users at different
positions of the users list have different emails (string equality). -/
theorem reachable_emails_unique (limit : Nat) (s : MemoryStore) (h : Reachable limit s) :
    s.users.Pairwise (fun u v => u.email ≠ v.email) := by
  induction h with
  | init => exact List.Pairwise.nil
  | step s r _ ih =>
    rcases handle_users limit s r with hsame | ⟨u, happ, hnew⟩
    · rw [hsame]
      exact ih
    · rw [happ, List.pairwise_append]
      refine ⟨ih, List.pairwise_singleton _ _, ?_⟩
      intro v hv w hw
      rw [List.mem_singleton] at hw
      rw [hw]
      exact hnew v hv

theorem reachable_emails_unique_witness :
    Reachable sampleLimit
      (run sampleLimit memoryStore [registerAlice, registerBob, registerAlice]) ∧
    (run sampleLimit memoryStore [registerAlice, registerBob, registerAlice]).users.length = 2 ∧
    (run sampleLimit memoryStore [registerAlice, registerBob, registerAlice]).users.Pairwise
      (fun u v => u.email ≠ v.email) :=
  ⟨reachable_run sampleLimit _ _ Reachable.init, by decide,
   reachable_emails_unique sampleLimit _ (reachable_run sampleLimit _ _ Reachable.init)⟩

/-! ## What a request can do to the store -/

theorem postRegister_effect (limit : Nat) (s : MemoryStore)
    (name email password : Option String) (now : String) :
    (∃ code msg, code ≠ 201 ∧ code ≠ 200 ∧
      postRegister limit s name email password now = (s, ⟨code, .error msg⟩)) ∨
    ∃ n e p id, name = some n ∧ email = some e ∧ password = some p ∧
      (∀ v ∈ s.users, v.email ≠ e) ∧ nextId limit (s.users.map User.id) = some id ∧
      postRegister limit s name email password now
        = ({ s with users := s.users ++ [⟨id, n, e, p, 0, now⟩] },
           ⟨201, .registered id n e⟩) := by
  unfold postRegister
  split
  · rename_i n e p
    split
    · exact Or.inl ⟨400, _, by decide, by decide, rfl⟩
    · split
      · exact Or.inl ⟨400, _, by decide, by decide, rfl⟩
      · rename_i hfind
        split
        · exact Or.inl ⟨500, _, by decide, by decide, rfl⟩
        · rename_i id hid
          refine Or.inr ⟨n, e, p, id, rfl, rfl, rfl, ?_, hid, rfl⟩
          intro v hv
          have hnone : s.users.find? (fun u => u.email == e) = none := by
            simpa using hfind
          have := List.find?_eq_none.mp hnone v hv
          simpa using this
  · exact Or.inl ⟨400, _, by decide, by decide, rfl⟩

theorem postLoans_effect (limit : Nat) (s : MemoryStore) (xUserId : Option String)
    (amount term_months : Option ℚ) (now : String) :
    (∃ code msg, code ≠ 201 ∧ code ≠ 200 ∧
      postLoans limit s xUserId amount term_months now = (s, ⟨code, .error msg⟩)) ∨
    ∃ u a t id, getUserFromHeader s xUserId = some u ∧ amount = some a ∧
      term_months = some t ∧ nextId limit (s.loans.map Loan.id) = some id ∧
      postLoans limit s xUserId amount term_months now
        = ({ s with loans := s.loans ++ [newLoan id u a t now] },
           ⟨201, .loanCreated id .pending⟩) := by
  unfold postLoans
  split
  · exact Or.inl ⟨401, _, by decide, by decide, rfl⟩
  · rename_i u hu
    split
    · rename_i a t
      split
      · exact Or.inl ⟨400, _, by decide, by decide, rfl⟩
      · split
        · exact Or.inl ⟨400, _, by decide, by decide, rfl⟩
        · split
          · exact Or.inl ⟨500, _, by decide, by decide, rfl⟩
          · rename_i id hid
            exact Or.inr ⟨u, a, t, id, hu, rfl, rfl, hid, rfl⟩
    · exact Or.inl ⟨400, _, by decide, by decide, rfl⟩

theorem postLoanRepayment_effect (limit : Nat) (s : MemoryStore) (xUserId : Option String)
    (id : String) (amount : Option ℚ) (now : String) :
    (∃ code msg, code ≠ 201 ∧ code ≠ 200 ∧
      postLoanRepayment limit s xUserId id amount now = (s, ⟨code, .error msg⟩)) ∨
    ∃ u a loan newId, getUserFromHeader s xUserId = some u ∧ amount = some a ∧
      findLoan s id = some loan ∧
      nextId limit (s.repayments.map Repayment.id) = some newId ∧
      postLoanRepayment limit s xUserId id amount now
        = ({ s with repayments := s.repayments ++ [newRepayment newId loan a now] },
           ⟨201, .repaymentRecorded newId id a⟩) := by
  unfold postLoanRepayment
  split
  · exact Or.inl ⟨401, _, by decide, by decide, rfl⟩
  · rename_i u hu
    split
    · exact Or.inl ⟨400, _, by decide, by decide, rfl⟩
    · rename_i a
      split
      · exact Or.inl ⟨400, _, by decide, by decide, rfl⟩
      · split
        · exact Or.inl ⟨404, _, by decide, by decide, rfl⟩
        · rename_i loan hloan
          split
          · exact Or.inl ⟨403, _, by decide, by decide, rfl⟩
          · split
            · exact Or.inl ⟨500, _, by decide, by decide, rfl⟩
            · rename_i newId hid
              exact Or.inr ⟨u, a, loan, newId, hu, rfl, hloan, hid, rfl⟩

theorem postLoanDecision_effect (s : MemoryStore) (xUserId xAdmin : Option String)
    (id : String) (action : Option String) (now : String) :
    (∃ code msg, code ≠ 201 ∧ code ≠ 200 ∧
      postLoanDecision s xUserId xAdmin id action now = (s, ⟨code, .error msg⟩)) ∨
    ∃ loan st by_, findLoan s id = some loan ∧ st ≠ Status.pending ∧
      postLoanDecision s xUserId xAdmin id action now
        = ({ s with loans := updateFirstLoan (isLoan id) (applyDecision st by_ now) s.loans },
           ⟨200, .decided loan.id st⟩) := by
  simp only [postLoanDecision]
  split
  · exact Or.inl ⟨403, _, by decide, by decide, rfl⟩
  · split
    · exact Or.inl ⟨400, _, by decide, by decide, rfl⟩
    · split
      · exact Or.inl ⟨500, _, by decide, by decide, rfl⟩
      · rename_i by_ _
        split
        · exact Or.inl ⟨404, _, by decide, by decide, rfl⟩
        · rename_i loan hloan
          refine Or.inr ⟨loan, _, by_, hloan, ?_, rfl⟩
          split <;> decide

/-- Every request leaves the store as it was, appends one user, appends one pending loan,
rewrites the decision fields of the first loan matching a route id, or appends one
repayment; new records take the next id of their kind. -/
theorem handle_effect (limit : Nat) (s : MemoryStore) (r : Request) :
    (handle limit s r).1 = s ∨
    (∃ u, (handle limit s r).1 = { s with users := s.users ++ [u] } ∧
      nextId limit (s.users.map User.id) = some u.id ∧ u.is_admin = 0) ∨
    (∃ l, (handle limit s r).1 = { s with loans := s.loans ++ [l] } ∧
      nextId limit (s.loans.map Loan.id) = some l.id ∧ l.status = .pending ∧
      l.decision_by = none ∧ l.decision_at = none) ∨
    (∃ id st by_ now, st ≠ Status.pending ∧ (findLoan s id).isSome = true ∧
      (handle limit s r).1
        = { s with loans := updateFirstLoan (isLoan id) (applyDecision st by_ now) s.loans }) ∨
    (∃ p, (handle limit s r).1 = { s with repayments := s.repayments ++ [p] } ∧
      nextId limit (s.repayments.map Repayment.id) = some p.id) := by
  cases r with
  | register name email password now =>
    rcases postRegister_effect limit s name email password now with
      ⟨_, _, _, _, h⟩ | ⟨n, e, p, id, _, _, _, _, hid, h⟩
    · exact Or.inl (by simp [handle, h])
    · exact Or.inr (Or.inl ⟨⟨id, n, e, p, 0, now⟩, by simp only [handle, h], hid, rfl⟩)
  | login email password => exact Or.inl (postLogin_store s email password)
  | submitLoan xUserId amount term_months now =>
    rcases postLoans_effect limit s xUserId amount term_months now with
      ⟨_, _, _, _, h⟩ | ⟨u, a, t, id, _, _, _, hid, h⟩
    · exact Or.inl (by simp [handle, h])
    · exact Or.inr (Or.inr (Or.inl
        ⟨newLoan id u a t now, by simp only [handle, h], hid, rfl, rfl, rfl⟩))
  | listLoans xUserId xAdmin => exact Or.inl (getLoans_store s xUserId xAdmin)
  | decision xUserId xAdmin id action now =>
    rcases postLoanDecision_effect s xUserId xAdmin id action now with
      ⟨_, _, _, _, h⟩ | ⟨loan, st, by_, hloan, hst, h⟩
    · exact Or.inl (by simp [handle, h])
    · exact Or.inr (Or.inr (Or.inr (Or.inl
        ⟨id, st, by_, now, hst, by simp [hloan], by simp only [handle, h]⟩)))
  | repayment xUserId id amount now =>
    rcases postLoanRepayment_effect limit s xUserId id amount now with
      ⟨_, _, _, _, h⟩ | ⟨u, a, loan, newId, _, _, _, hid, h⟩
    · exact Or.inl (by simp [handle, h])
    · exact Or.inr (Or.inr (Or.inr (Or.inr
        ⟨newRepayment newId loan a now, by simp only [handle, h], hid⟩)))
  | listRepayments xUserId id => exact Or.inl (getLoanRepayments_store s xUserId id)

/-! ## Identifiers count the records of each kind -/

theorem foldl_max_range_one (n : Nat) : (List.range' 1 n).foldl max 0 = n := by
  induction n with
  | zero => rfl
  | succ n ih =>
    rw [List.range'_1_concat, List.foldl_append, ih]
    simp only [List.foldl_cons, List.foldl_nil]
    omega

theorem nextId_range_one (limit n k : Nat) (h : nextId limit (List.range' 1 n) = some k) :
    k = n + 1 := by
  unfold nextId at h
  split at h
  · split at h
    · rw [foldl_max_range_one] at h
      exact (Option.some.inj h).symm
    · exact absurd h (by simp)
  · rename_i h0
    have hn : n = 0 := by simpa using h0
    rw [hn]
    exact (Option.some.inj h).symm

theorem nextId_of_le (limit : Nat) (ids : List Nat) (h : ids.length ≤ limit) :
    ∃ k, nextId limit ids = some k := by
  unfold nextId
  split
  · simp [h]
  · exact ⟨_, rfl⟩

theorem nextId_of_lt (limit : Nat) (ids : List Nat) (h : limit < ids.length) :
    nextId limit ids = none := by
  unfold nextId
  rw [if_pos (by omega), if_neg (by omega)]

theorem updateFirstLoan_map_id (p : Loan → Bool) (st : Status) (by_ : Option Nat)
    (now : String) (ls : List Loan) :
    (updateFirstLoan p (applyDecision st by_ now) ls).map Loan.id = ls.map Loan.id := by
  induction ls with
  | nil => rfl
  | cons l ls ih =>
    unfold updateFirstLoan
    split
    · simp [applyDecision]
    · simp [ih]

theorem reachable_ids_range (limit : Nat) (s : MemoryStore) (h : Reachable limit s) :
    s.users.map User.id = List.range' 1 s.users.length ∧
    s.loans.map Loan.id = List.range' 1 s.loans.length ∧
    s.repayments.map Repayment.id = List.range' 1 s.repayments.length := by
  induction h with
  | init => exact ⟨rfl, rfl, rfl⟩
  | step s r _ ih =>
    obtain ⟨hu, hl, hp⟩ := ih
    rcases handle_effect limit s r with h | ⟨u, h, hid, _⟩ | ⟨l, h, hid, _⟩ |
      ⟨id, st, by_, now, _, _, h⟩ | ⟨p, h, hid⟩
    · rw [h]
      exact ⟨hu, hl, hp⟩
    · rw [h]
      refine ⟨?_, hl, hp⟩
      simp only [List.map_append, List.map_cons, List.map_nil, List.length_append,
        List.length_singleton, List.range'_1_concat]
      rw [hu] at hid
      rw [nextId_range_one limit _ _ hid, hu, Nat.add_comm 1]
    · rw [h]
      refine ⟨hu, ?_, hp⟩
      simp only [List.map_append, List.map_cons, List.map_nil, List.length_append,
        List.length_singleton, List.range'_1_concat]
      rw [hl] at hid
      rw [nextId_range_one limit _ _ hid, hl, Nat.add_comm 1]
    · rw [h]
      refine ⟨hu, ?_, hp⟩
      simp only [updateFirstLoan_map_id, updateFirstLoan_length]
      exact hl
    · rw [h]
      refine ⟨hu, hl, ?_⟩
      simp only [List.map_append, List.map_cons, List.map_nil, List.length_append,
        List.length_singleton, List.range'_1_concat]
      rw [hp] at hid
      rw [nextId_range_one limit _ _ hid, hp, Nat.add_comm 1]

/-- C11: in every store reachable from the initial store the ids of the users, of the
loans and of the repayments are 1, 2, ..., n in list order (so strictly increasing and
without repetition), and a successful registration, submission or repayment on such a
store creates the record with id n + 1, n being the number of records of that kind. -/
theorem created_ids_count_from_one (limit : Nat) (s : MemoryStore) (h : Reachable limit s) :
    (s.users.map User.id = List.range' 1 s.users.length ∧
      s.loans.map Loan.id = List.range' 1 s.loans.length ∧
      s.repayments.map Repayment.id = List.range' 1 s.repayments.length) ∧
    ((s.users.map User.id).Pairwise (· < ·) ∧ (s.loans.map Loan.id).Pairwise (· < ·) ∧
      (s.repayments.map Repayment.id).Pairwise (· < ·)) ∧
    (∀ name email password now, (postRegister limit s name email password now).2.status = 201 →
      ∃ n e p, postRegister limit s name email password now
        = ({ s with users := s.users ++ [⟨s.users.length + 1, n, e, p, 0, now⟩] },
           ⟨201, .registered (s.users.length + 1) n e⟩)) ∧
    (∀ xUserId amount term_months now,
      (postLoans limit s xUserId amount term_months now).2.status = 201 →
      ∃ l, l.id = s.loans.length + 1 ∧ postLoans limit s xUserId amount term_months now
        = ({ s with loans := s.loans ++ [l] },
           ⟨201, .loanCreated (s.loans.length + 1) .pending⟩)) ∧
    (∀ xUserId id amount now, (postLoanRepayment limit s xUserId id amount now).2.status = 201 →
      ∃ p a, p.id = s.repayments.length + 1 ∧ postLoanRepayment limit s xUserId id amount now
        = ({ s with repayments := s.repayments ++ [p] },
           ⟨201, .repaymentRecorded (s.repayments.length + 1) id a⟩)) := by
  obtain ⟨hu, hl, hp⟩ := reachable_ids_range limit s h
  refine ⟨⟨hu, hl, hp⟩, ⟨?_, ?_, ?_⟩, ?_, ?_, ?_⟩
  · rw [hu]
    exact List.pairwise_lt_range' 1 _
  · rw [hl]
    exact List.pairwise_lt_range' 1 _
  · rw [hp]
    exact List.pairwise_lt_range' 1 _
  · intro name email password now hs
    rcases postRegister_effect limit s name email password now with
      ⟨code, msg, h1, _, h⟩ | ⟨n, e, p, id, _, _, _, _, hid, h⟩
    · rw [h] at hs
      exact absurd hs h1
    · rw [hu] at hid
      have hk := nextId_range_one limit _ _ hid
      subst hk
      exact ⟨n, e, p, h⟩
  · intro xUserId amount term_months now hs
    rcases postLoans_effect limit s xUserId amount term_months now with
      ⟨code, msg, h1, _, h⟩ | ⟨u, a, t, id, _, _, _, hid, h⟩
    · rw [h] at hs
      exact absurd hs h1
    · rw [hl] at hid
      have hk := nextId_range_one limit _ _ hid
      subst hk
      exact ⟨newLoan (s.loans.length + 1) u a t now, rfl, h⟩
  · intro xUserId id amount now hs
    rcases postLoanRepayment_effect limit s xUserId id amount now with
      ⟨code, msg, h1, _, h⟩ | ⟨u, a, loan, newId, _, _, _, hid, h⟩
    · rw [h] at hs
      exact absurd hs h1
    · rw [hp] at hid
      have hk := nextId_range_one limit _ _ hid
      subst hk
      exact ⟨newRepayment (s.repayments.length + 1) loan a now, a, rfl, h⟩

theorem created_ids_count_from_one_witness :
    Reachable sampleLimit (run sampleLimit memoryStore twoLoansTwoRepayments) ∧
    (run sampleLimit memoryStore twoLoansTwoRepayments).users.map User.id = [1] ∧
    (run sampleLimit memoryStore twoLoansTwoRepayments).loans.map Loan.id = [1, 2] ∧
    (run sampleLimit memoryStore twoLoansTwoRepayments).repayments.map Repayment.id = [1, 2] ∧
    (run sampleLimit memoryStore twoLoansTwoRepayments).loans.map Loan.id
      = List.range' 1 (run sampleLimit memoryStore twoLoansTwoRepayments).loans.length :=
  ⟨reachable_run sampleLimit _ _ Reachable.init, by decide, by decide, by decide,
   (created_ids_count_from_one sampleLimit _
     (reachable_run sampleLimit _ _ Reachable.init)).1.2.1⟩

/-! ## A successful submission -/

/-- C12: whenever the submission handler answers 201, the caller resolved to a user, the
store gained exactly one loan at the end, that loan is pending with `decision_at` and
`decision_by` null and `user_id` the id of the resolved caller, and the body is the id
of that loan with status pending. -/
theorem postLoans_success_creates_pending (limit : Nat) (s : MemoryStore) (xUserId : Option String)
    (amount term_months : Option ℚ) (now : String)
    (hs : (postLoans limit s xUserId amount term_months now).2.status = 201) :
    ∃ u a t l, getUserFromHeader s xUserId = some u ∧ amount = some a ∧
      term_months = some t ∧
      (postLoans limit s xUserId amount term_months now).1 = { s with loans := s.loans ++ [l] } ∧
      l.status = .pending ∧ l.decision_at = none ∧ l.decision_by = none ∧
      l.user_id = u.id ∧ l.amount = a ∧ l.term_months = t ∧ l.created_at = now ∧
      (postLoans limit s xUserId amount term_months now).2
        = ⟨201, .loanCreated l.id .pending⟩ := by
  rcases postLoans_effect limit s xUserId amount term_months now with
    ⟨code, msg, h1, _, h⟩ | ⟨u, a, t, id, hu, ha, ht, _, h⟩
  · rw [h] at hs
    exact absurd hs h1
  · exact ⟨u, a, t, newLoan id u a t now, hu, ha, ht, by rw [h], rfl, rfl, rfl, rfl, rfl,
      rfl, rfl, by rw [h]; rfl⟩

theorem postLoans_success_creates_pending_witness :
    (postLoans sampleLimit sampleStore (some "2") (some 50000) (some 12)
        "2024-02-01T00:00:00.000Z").2.status = 201 ∧
    ∃ u a t l, getUserFromHeader sampleStore (some "2") = some u ∧
      (some 50000 : Option ℚ) = some a ∧ (some 12 : Option ℚ) = some t ∧
      (postLoans sampleLimit sampleStore (some "2") (some 50000) (some 12)
        "2024-02-01T00:00:00.000Z").1
        = { sampleStore with loans := sampleStore.loans ++ [l] } ∧
      l.status = .pending ∧ l.decision_at = none ∧ l.decision_by = none ∧
      l.user_id = u.id ∧ l.amount = a ∧ l.term_months = t ∧
      l.created_at = "2024-02-01T00:00:00.000Z" ∧
      (postLoans sampleLimit sampleStore (some "2") (some 50000) (some 12)
        "2024-02-01T00:00:00.000Z").2 = ⟨201, .loanCreated l.id .pending⟩ :=
  ⟨by decide,
   postLoans_success_creates_pending sampleLimit sampleStore (some "2") (some 50000) (some 12)
     "2024-02-01T00:00:00.000Z" (by decide)⟩

/-! ## Decisions by an admin principal -/

theorem find_updateFirstLoan (id : String) (st : Status) (by_ : Option Nat) (now : String)
    (ls : List Loan) :
    (updateFirstLoan (isLoan id) (applyDecision st by_ now) ls).find? (isLoan id)
      = (ls.find? (isLoan id)).map (applyDecision st by_ now) := by
  induction ls with
  | nil => rfl
  | cons l ls ih =>
    unfold updateFirstLoan
    by_cases hl : isLoan id l = true
    · have hl2 : isLoan id (applyDecision st by_ now l) = true := hl
      simp [hl, List.find?_cons, hl2]
    · simp [hl, List.find?_cons, ih]

/-- The decision handler for an admin principal and a valid action, by the outcome of the
loan lookup. -/
theorem postLoanDecision_of_admin (s : MemoryStore) (xUserId xAdmin : Option String)
    (id : String) (action : Option String) (now : String)
    (hadmin : xAdmin = some "true" ∨ userIsAdmin (getUserFromHeader s xUserId) = true)
    (hact : action = some "approve" ∨ action = some "reject") :
    postLoanDecision s xUserId xAdmin id action now
      = match findLoan s id with
        | none => (s, ⟨404, .error "Loan not found"⟩)
        | some loan =>
          (decidedStore s xUserId xAdmin id action now,
           ⟨200, .decided loan.id (decisionStatus action)⟩) := by
  have hact2 : (action == some "approve" || action == some "reject") = true := by
    rcases hact with h | h <;> simp [h]
  by_cases hx : xAdmin = some "true"
  · simp only [postLoanDecision, hx, hact2, decidedStore, decisionStatus, decisionBy]
    cases findLoan s id <;> simp
  · have hu : userIsAdmin (getUserFromHeader s xUserId) = true := by
      rcases hadmin with h | h
      · exact absurd h hx
      · exact h
    cases hg : getUserFromHeader s xUserId with
    | none => simp [hg, userIsAdmin] at hu
    | some u =>
      rw [hg] at hu
      simp only [postLoanDecision, hx, hact2, hg, hu, decidedStore, decisionStatus,
        decisionBy]
      cases findLoan s id <;> simp

theorem findLoan_decidedStore (s : MemoryStore) (xUserId xAdmin : Option String)
    (id : String) (action : Option String) (now : String) :
    findLoan (decidedStore s xUserId xAdmin id action now) id
      = (findLoan s id).map
          (applyDecision (decisionStatus action) (decisionBy s xUserId xAdmin) now) := by
  simp only [findLoan, decidedStore, find_updateFirstLoan]

/-- The 403 guard of the decision handler, by the truth value it tests. -/
theorem postLoanDecision_guard_403 (s : MemoryStore)
    (xUserId xAdmin : Option String) (id : String) (action : Option String) (now : String)
    (hflag : xAdmin ≠ some "true")
    (hadm : userIsAdmin (getUserFromHeader s xUserId) = false) :
    postLoanDecision s xUserId xAdmin id action now
      = (s, ⟨403, .error "Admin header required"⟩) := by
  simp [postLoanDecision, hflag, hadm]

/-- A decision answered 200 was made by an admin principal, with a valid action, on a
route id that finds a loan. -/
theorem postLoanDecision_success (s : MemoryStore) (xUserId xAdmin : Option String)
    (id : String) (action : Option String) (now : String)
    (hs : (postLoanDecision s xUserId xAdmin id action now).2.status = 200) :
    (xAdmin = some "true" ∨ userIsAdmin (getUserFromHeader s xUserId) = true) ∧
    (action = some "approve" ∨ action = some "reject") ∧
    ∃ loan, findLoan s id = some loan ∧
      postLoanDecision s xUserId xAdmin id action now
        = (decidedStore s xUserId xAdmin id action now,
           ⟨200, .decided loan.id (decisionStatus action)⟩) := by
  have hadmin : xAdmin = some "true" ∨ userIsAdmin (getUserFromHeader s xUserId) = true := by
    by_contra hn
    push_neg at hn
    have h403 := postLoanDecision_guard_403 s xUserId xAdmin id action now hn.1
      (by simpa using hn.2)
    rw [h403] at hs
    simp at hs
  have hact : action = some "approve" ∨ action = some "reject" := by
    by_contra hn
    push_neg at hn
    have hb : (action == some "approve" || action == some "reject") = false := by
      simp [hn.1, hn.2]
    simp only [postLoanDecision, hb] at hs
    split at hs <;> simp at hs
  refine ⟨hadmin, hact, ?_⟩
  have hkey := postLoanDecision_of_admin s xUserId xAdmin id action now hadmin hact
  cases hloan : findLoan s id with
  | none =>
    rw [hloan] at hkey
    rw [hkey] at hs
    simp at hs
  | some loan =>
    rw [hloan] at hkey
    exact ⟨loan, rfl, hkey⟩

/-- C13: for an admin principal (admin flag asserted, or caller resolved to a user with
`is_admin` set) and a route id that finds a loan, the action approve stores status
approved and the action reject stores status rejected on that loan, `decision_at` becomes
the clock reading (non-null), the id of the loan is kept, and the answer is 200 with the
id of the loan and the stored status. -/
theorem postLoanDecision_sets_status (s : MemoryStore) (xUserId xAdmin : Option String)
    (id : String) (action : Option String) (now : String) (loan : Loan)
    (hadmin : xAdmin = some "true" ∨ userIsAdmin (getUserFromHeader s xUserId) = true)
    (hloan : findLoan s id = some loan)
    (hact : action = some "approve" ∨ action = some "reject") :
    ∃ loan2, findLoan (postLoanDecision s xUserId xAdmin id action now).1 id = some loan2 ∧
      loan2.id = loan.id ∧ loan2.user_id = loan.user_id ∧
      (action = some "approve" → loan2.status = .approved) ∧
      (action = some "reject" → loan2.status = .rejected) ∧
      loan2.decision_at = some now ∧ loan2.decision_at ≠ none ∧
      (postLoanDecision s xUserId xAdmin id action now).2
        = ⟨200, .decided loan.id loan2.status⟩ := by
  rw [postLoanDecision_of_admin s xUserId xAdmin id action now hadmin hact, hloan]
  refine ⟨applyDecision (decisionStatus action) (decisionBy s xUserId xAdmin) now loan,
    ?_, rfl, rfl, ?_, ?_, rfl, ?_, rfl⟩
  · simp only [findLoan_decidedStore, hloan, Option.map_some']
  · intro h
    simp [applyDecision, decisionStatus, h]
  · intro h
    simp [applyDecision, decisionStatus, h]
  · simp [applyDecision]

theorem postLoanDecision_sets_status_witness :
    ((some "true" : Option String) = some "true" ∨
      userIsAdmin (getUserFromHeader sampleStore none) = true) ∧
    findLoan sampleStore "1" = some aliceLoan ∧
    ((some "reject" : Option String) = some "approve" ∨
      (some "reject" : Option String) = some "reject") ∧
    ∃ loan2, findLoan (postLoanDecision sampleStore none (some "true") "1" (some "reject")
        "2024-02-01T00:00:00.000Z").1 "1" = some loan2 ∧
      loan2.id = aliceLoan.id ∧ loan2.user_id = aliceLoan.user_id ∧
      ((some "reject" : Option String) = some "approve" → loan2.status = .approved) ∧
      ((some "reject" : Option String) = some "reject" → loan2.status = .rejected) ∧
      loan2.decision_at = some "2024-02-01T00:00:00.000Z" ∧ loan2.decision_at ≠ none ∧
      (postLoanDecision sampleStore none (some "true") "1" (some "reject")
        "2024-02-01T00:00:00.000Z").2 = ⟨200, .decided aliceLoan.id loan2.status⟩ :=
  ⟨Or.inl rfl, by decide, Or.inr rfl,
   postLoanDecision_sets_status sampleStore none (some "true") "1" (some "reject")
     "2024-02-01T00:00:00.000Z" aliceLoan (Or.inl rfl) (by decide) (Or.inr rfl)⟩

/-- C14 (as stated, refuted): caller 3 of the sample store resolves to a user with
`is_admin` set; deciding loan 1 with the admin flag asserted as well succeeds and stores
`decision_by` null, not the id 3 of that user. -/
theorem decision_by_null_when_flag_asserted :
    getUserFromHeader sampleStore (some "3") = some carol ∧ carol.is_admin = 1 ∧
    carol.id = 3 ∧
    (postLoanDecision sampleStore (some "3") (some "true") "1" (some "approve")
        "2024-02-01T00:00:00.000Z").2 = ⟨200, .decided 1 .approved⟩ ∧
    (findLoan (postLoanDecision sampleStore (some "3") (some "true") "1" (some "approve")
        "2024-02-01T00:00:00.000Z").1 "1").map Loan.decision_by = some none := by
  decide

/-- C14 (amended): after every successful decision the loan found by the route id has
`decision_by` null when the admin flag is asserted, whoever the caller id resolves to,
and the id of the resolved user, who then has `is_admin` set, when the flag is not
asserted. -/
theorem postLoanDecision_decision_by (s : MemoryStore) (xUserId xAdmin : Option String)
    (id : String) (action : Option String) (now : String)
    (hs : (postLoanDecision s xUserId xAdmin id action now).2.status = 200) :
    ∃ loan2, findLoan (postLoanDecision s xUserId xAdmin id action now).1 id = some loan2 ∧
      (xAdmin = some "true" → loan2.decision_by = none) ∧
      (xAdmin ≠ some "true" →
        ∃ u, getUserFromHeader s xUserId = some u ∧ u.is_admin ≠ 0 ∧
          loan2.decision_by = some u.id) := by
  obtain ⟨hadmin, _, loan, hloan, hkey⟩ :=
    postLoanDecision_success s xUserId xAdmin id action now hs
  rw [hkey]
  refine ⟨applyDecision (decisionStatus action) (decisionBy s xUserId xAdmin) now loan,
    ?_, ?_, ?_⟩
  · simp only [findLoan_decidedStore, hloan, Option.map_some']
  · intro hx
    simp [applyDecision, decisionBy, hx]
  · intro hx
    have hu : userIsAdmin (getUserFromHeader s xUserId) = true := by
      rcases hadmin with h | h
      · exact absurd h hx
      · exact h
    cases hg : getUserFromHeader s xUserId with
    | none => simp [hg, userIsAdmin] at hu
    | some u =>
      rw [hg] at hu
      refine ⟨u, rfl, by simpa [userIsAdmin] using hu, ?_⟩
      simp [applyDecision, decisionBy, hx, hg]

theorem postLoanDecision_decision_by_witness :
    (postLoanDecision sampleStore (some "3") none "1" (some "approve")
        "2024-02-01T00:00:00.000Z").2.status = 200 ∧
    (findLoan (postLoanDecision sampleStore (some "3") none "1" (some "approve")
        "2024-02-01T00:00:00.000Z").1 "1").map Loan.decision_by = some (some 3) ∧
    ∃ loan2, findLoan (postLoanDecision sampleStore (some "3") none "1" (some "approve")
        "2024-02-01T00:00:00.000Z").1 "1" = some loan2 ∧
      ((none : Option String) = some "true" → loan2.decision_by = none) ∧
      ((none : Option String) ≠ some "true" →
        ∃ u, getUserFromHeader sampleStore (some "3") = some u ∧ u.is_admin ≠ 0 ∧
          loan2.decision_by = some u.id) :=
  ⟨by decide, by decide,
   postLoanDecision_decision_by sampleStore (some "3") none "1" (some "approve")
     "2024-02-01T00:00:00.000Z" (by decide)⟩

/-- C15: when the route id finds no loan, an admin principal deciding with approve or
reject gets 404 Loan not found, and whatever the principal and the action the handler
returns the store it was given, users, loans and repayments alike. -/
theorem postLoanDecision_unknown_loan (s : MemoryStore) (id : String)
    (hnone : findLoan s id = none) :
    (∀ xUserId xAdmin action now,
      (xAdmin = some "true" ∨ userIsAdmin (getUserFromHeader s xUserId) = true) →
      (action = some "approve" ∨ action = some "reject") →
      postLoanDecision s xUserId xAdmin id action now
        = (s, ⟨404, .error "Loan not found"⟩)) ∧
    (∀ xUserId xAdmin action now,
      (postLoanDecision s xUserId xAdmin id action now).1 = s) := by
  constructor
  · intro xUserId xAdmin action now hadmin hact
    rw [postLoanDecision_of_admin s xUserId xAdmin id action now hadmin hact, hnone]
  · intro xUserId xAdmin action now
    rcases postLoanDecision_effect s xUserId xAdmin id action now with
      ⟨_, _, _, _, h⟩ | ⟨loan, _, _, hloan, _, _⟩
    · rw [h]
    · rw [hnone] at hloan
      exact absurd hloan (by simp)

theorem postLoanDecision_unknown_loan_witness :
    findLoan sampleStore "999999" = none ∧
    postLoanDecision sampleStore none (some "true") "999999" (some "approve")
        "2024-02-01T00:00:00.000Z"
      = (sampleStore, ⟨404, .error "Loan not found"⟩) :=
  ⟨by decide,
   (postLoanDecision_unknown_loan sampleStore "999999" (by decide)).1 none (some "true")
     (some "approve") "2024-02-01T00:00:00.000Z" (Or.inl rfl) (Or.inl rfl)⟩

/-! ## An approved loan stays listed for its owner -/

theorem updateFirstLoan_mem_of_not (p : Loan → Bool) (f : Loan → Loan) (ls : List Loan)
    (l : Loan) (hl : l ∈ ls) (hp : p l = false) : l ∈ updateFirstLoan p f ls := by
  induction ls with
  | nil => cases hl
  | cons a ls ih =>
    unfold updateFirstLoan
    rcases List.mem_cons.mp hl with h | h
    · subst h
      simp [hp]
    · split
      · exact List.mem_cons_of_mem _ h
      · exact List.mem_cons_of_mem _ (ih h)

theorem run_cons (limit : Nat) (s : MemoryStore) (r : Request) (rs : List Request) :
    run limit s (r :: rs) = run limit (handle limit s r).1 rs := rfl

theorem run_invariant (limit : Nat) (Inv : MemoryStore → Prop) (ok : Request → Prop)
    (hstep : ∀ s r, ok r → Inv s → Inv (handle limit s r).1) (rs : List Request) :
    ∀ s, (∀ r ∈ rs, ok r) → Inv s → Inv (run limit s rs) := by
  induction rs with
  | nil => exact fun s _ h => h
  | cons r rs ih =>
    intro s hok h
    rw [run_cons]
    exact ih _ (fun q hq => hok q (List.mem_cons_of_mem _ hq))
      (hstep s r (hok r (List.mem_cons_self _ _)) h)

theorem getUserFromHeader_handle (limit : Nat) (s : MemoryStore) (r : Request)
    (xUserId : Option String)
    (u : User) (h : getUserFromHeader s xUserId = some u) :
    getUserFromHeader (handle limit s r).1 xUserId = some u := by
  unfold getUserFromHeader at h ⊢
  cases xUserId with
  | none => exact h
  | some userId =>
    simp only at h ⊢
    split at h
    · exact absurd h (by simp)
    · rename_i hne
      rw [if_neg hne]
      rcases handle_users limit s r with hsame | ⟨v, happ, _⟩
      · rw [hsame]
        exact h
      · rw [happ, List.find?_append, h]
        rfl

theorem handle_keeps_approved (limit : Nat) (n uid : Nat) (s : MemoryStore) (r : Request)
    (hr : isDecisionOn n r = false)
    (h : ∃ l ∈ s.loans, l.id = n ∧ l.user_id = uid ∧ l.status = .approved) :
    ∃ l ∈ (handle limit s r).1.loans,
      l.id = n ∧ l.user_id = uid ∧ l.status = .approved := by
  obtain ⟨l, hl, hid, huid, hst⟩ := h
  refine ⟨l, ?_, hid, huid, hst⟩
  cases r with
  | register name email password now =>
    rcases postRegister_effect limit s name email password now with
      ⟨code, msg, h1, _, h⟩ | ⟨_, _, _, _, _, _, _, _, _, h⟩
    all_goals simp only [handle, h]; exact hl
  | login email password =>
    simp only [handle, postLogin_store]
    exact hl
  | submitLoan xUserId amount term_months now =>
    rcases postLoans_effect limit s xUserId amount term_months now with
      ⟨_, _, _, _, h⟩ | ⟨_, _, _, _, _, _, _, _, h⟩
    · simp only [handle, h]
      exact hl
    · simp only [handle, h]
      exact List.mem_append_left _ hl
  | listLoans xUserId xAdmin =>
    simp only [handle, getLoans_store]
    exact hl
  | decision xUserId xAdmin id action now =>
    rcases postLoanDecision_effect s xUserId xAdmin id action now with
      ⟨_, _, _, _, h⟩ | ⟨_, _, _, _, _, h⟩
    · simp only [handle, h]
      exact hl
    · simp only [handle, h]
      apply updateFirstLoan_mem_of_not _ _ _ _ hl
      simp only [isDecisionOn, decide_eq_false_iff_not] at hr
      simp only [isLoan, decide_eq_false_iff_not, hid]
      exact fun hc => hr hc.symm
  | repayment xUserId id amount now =>
    rcases postLoanRepayment_effect limit s xUserId id amount now with
      ⟨_, _, _, _, h⟩ | ⟨_, _, _, _, _, _, _, _, h⟩
    all_goals simp only [handle, h]; exact hl
  | listRepayments xUserId id =>
    simp only [handle, getLoanRepayments_store]
    exact hl

/-- The listing handler for a resolved caller without the admin flag: 200, and every
stored loan owned by the caller is among the loans of the body. -/
theorem getLoans_contains_own (s : MemoryStore) (xUserId xFlag : Option String) (u : User)
    (hu : getUserFromHeader s xUserId = some u) (l : Loan) (hl : l ∈ s.loans)
    (hown : l.user_id = u.id) :
    (getLoans s xUserId xFlag).2.status = 200 ∧
    l ∈ rowLoans (getLoans s xUserId xFlag).2.body := by
  by_cases hadm : (decide (xFlag = some "true") || userIsAdmin (some u)) = true
  · have h : getLoans s xUserId xFlag
        = (s, ⟨200, .loansWithApplicant (loansWithApplicant s)⟩) := by
      simp only [getLoans, hu, hadm]
      simp
    rw [h]
    refine ⟨rfl, ?_⟩
    simp only [rowLoans, loansWithApplicant_loans]
    exact hl
  · have h : getLoans s xUserId xFlag
        = (s, ⟨200, .loans (s.loans.filter (fun l => l.user_id == u.id))⟩) := by
      simp only [getLoans, hu, hadm]
      simp
    rw [h]
    refine ⟨rfl, ?_⟩
    simp only [rowLoans, List.mem_filter]
    exact ⟨hl, by simp [hown]⟩

/-- C16: let the route id find loan L, owned by the user U that a caller id resolves to,
and let a decision with action approve on that route id be answered 200.  After any
further requests, none of them a decision whose route id denotes the id of L, the
listing for that caller id is answered 200 and contains a loan with the id of L, owned
by U, with status approved; this holds whatever the X-Admin header of the listing, in
particular without it. -/
theorem approved_loan_stays_listed (limit : Nat) (s : MemoryStore) (xUserId xAdmin : Option String)
    (id now : String) (L : Loan) (U : User) (xOwner xFlag : Option String)
    (rs : List Request)
    (hL : findLoan s id = some L)
    (hU : getUserFromHeader s xOwner = some U) (hown : L.user_id = U.id)
    (hdec : (postLoanDecision s xUserId xAdmin id (some "approve") now).2.status = 200)
    (hrs : ∀ r ∈ rs, isDecisionOn L.id r = false) :
    (getLoans (run limit (postLoanDecision s xUserId xAdmin id (some "approve") now).1 rs)
        xOwner xFlag).2.status = 200 ∧
    ∃ l ∈ rowLoans (getLoans
        (run limit (postLoanDecision s xUserId xAdmin id (some "approve") now).1 rs)
        xOwner xFlag).2.body,
      l.id = L.id ∧ l.user_id = U.id ∧ l.status = .approved := by
  obtain ⟨_, _, loan, hloan, hkey⟩ :=
    postLoanDecision_success s xUserId xAdmin id (some "approve") now hdec
  have hLl : loan = L := by
    rw [hL] at hloan
    exact (Option.some.inj hloan).symm
  subst hLl
  -- the store right after the decision
  have h1 : ∃ l ∈ (postLoanDecision s xUserId xAdmin id (some "approve") now).1.loans,
      l.id = loan.id ∧ l.user_id = U.id ∧ l.status = .approved := by
    rw [hkey]
    have hf := findLoan_decidedStore s xUserId xAdmin id (some "approve") now
    rw [hL] at hf
    exact ⟨_, List.mem_of_find?_eq_some hf, rfl, hown, by simp [applyDecision, decisionStatus]⟩
  have hU1 : getUserFromHeader
      (postLoanDecision s xUserId xAdmin id (some "approve") now).1 xOwner = some U :=
    getUserFromHeader_handle limit s (.decision xUserId xAdmin id (some "approve") now) xOwner U hU
  -- the store after the further requests
  have h2 := run_invariant limit
    (fun t => ∃ l ∈ t.loans, l.id = loan.id ∧ l.user_id = U.id ∧ l.status = .approved)
    (fun r => isDecisionOn loan.id r = false)
    (fun t r hr ht => handle_keeps_approved limit loan.id U.id t r hr ht) rs _ hrs h1
  have hU2 := run_invariant limit (fun t => getUserFromHeader t xOwner = some U) (fun _ => True)
    (fun t r _ ht => getUserFromHeader_handle limit t r xOwner U ht) rs _ (fun _ _ => trivial) hU1
  obtain ⟨l, hl, hid, huid, hst⟩ := h2
  obtain ⟨h200, hmem⟩ := getLoans_contains_own _ xOwner xFlag U hU2 l hl huid
  exact ⟨h200, l, hmem, hid, huid, hst⟩

theorem approved_loan_stays_listed_witness :
    findLoan sampleStore "1" = some aliceLoan ∧
    getUserFromHeader sampleStore (some "1") = some alice ∧
    aliceLoan.user_id = alice.id ∧
    (postLoanDecision sampleStore none (some "true") "1" (some "approve")
        "2024-02-01T00:00:00.000Z").2.status = 200 ∧
    (∀ r ∈ afterApproval, isDecisionOn aliceLoan.id r = false) ∧
    (getLoans (run sampleLimit (postLoanDecision sampleStore none (some "true") "1" (some "approve")
        "2024-02-01T00:00:00.000Z").1 afterApproval) (some "1") none).2.status = 200 ∧
    ∃ l ∈ rowLoans (getLoans
        (run sampleLimit (postLoanDecision sampleStore none (some "true") "1" (some "approve")
          "2024-02-01T00:00:00.000Z").1 afterApproval) (some "1") none).2.body,
      l.id = aliceLoan.id ∧ l.user_id = alice.id ∧ l.status = .approved :=
  ⟨by decide, by decide, by decide, by decide, by decide,
   approved_loan_stays_listed sampleLimit sampleStore none (some "true") "1"
     "2024-02-01T00:00:00.000Z" aliceLoan alice (some "1") none afterApproval
     (by decide) (by decide) (by decide) (by decide) (by decide)⟩

/-! ## Failures leave the store as it was -/

/-- C18: for every store and every request (register, login, submit, list, decide, record
repayment, list repayments), a response with status 400, 401, 403 or 404 comes with the
store the handler was given. -/
theorem failure_leaves_store (limit : Nat) (s : MemoryStore) (r : Request)
    (hfail : (handle limit s r).2.status = 400 ∨ (handle limit s r).2.status = 401 ∨
      (handle limit s r).2.status = 403 ∨ (handle limit s r).2.status = 404) :
    (handle limit s r).1 = s := by
  have hne : (handle limit s r).2.status ≠ 200 ∧ (handle limit s r).2.status ≠ 201 := by
    rcases hfail with h | h | h | h <;> rw [h] <;> decide
  cases r with
  | register name email password now =>
    rcases postRegister_effect limit s name email password now with
      ⟨code, msg, h1, _, h⟩ | ⟨_, _, _, _, _, _, _, _, _, h⟩
    · simp only [handle, h]
    · simp only [handle, h] at hne
      exact absurd rfl hne.2
  | login email password => exact postLogin_store s email password
  | submitLoan xUserId amount term_months now =>
    rcases postLoans_effect limit s xUserId amount term_months now with
      ⟨_, _, _, _, h⟩ | ⟨_, _, _, _, _, _, _, _, h⟩
    · simp only [handle, h]
    · simp only [handle, h] at hne
      exact absurd rfl hne.2
  | listLoans xUserId xAdmin => exact getLoans_store s xUserId xAdmin
  | decision xUserId xAdmin id action now =>
    rcases postLoanDecision_effect s xUserId xAdmin id action now with
      ⟨_, _, _, _, h⟩ | ⟨_, _, _, _, _, h⟩
    · simp only [handle, h]
    · simp only [handle, h] at hne
      exact absurd rfl hne.1
  | repayment xUserId id amount now =>
    rcases postLoanRepayment_effect limit s xUserId id amount now with
      ⟨_, _, _, _, h⟩ | ⟨_, _, _, _, _, _, _, _, h⟩
    · simp only [handle, h]
    · simp only [handle, h] at hne
      exact absurd rfl hne.2
  | listRepayments xUserId id => exact getLoanRepayments_store s xUserId id

theorem failure_leaves_store_witness :
    ((handle sampleLimit sampleStore (.decision (some "1") none "1" (some "approve")
        "2024-02-01T00:00:00.000Z")).2.status = 400 ∨
      (handle sampleLimit sampleStore (.decision (some "1") none "1" (some "approve")
        "2024-02-01T00:00:00.000Z")).2.status = 401 ∨
      (handle sampleLimit sampleStore (.decision (some "1") none "1" (some "approve")
        "2024-02-01T00:00:00.000Z")).2.status = 403 ∨
      (handle sampleLimit sampleStore (.decision (some "1") none "1" (some "approve")
        "2024-02-01T00:00:00.000Z")).2.status = 404) ∧
    (handle sampleLimit sampleStore (.decision (some "1") none "1" (some "approve")
        "2024-02-01T00:00:00.000Z")).1 = sampleStore :=
  ⟨by decide,
   failure_leaves_store sampleLimit sampleStore (.decision (some "1") none "1" (some "approve")
     "2024-02-01T00:00:00.000Z") (by decide)⟩

/-! ## Validation of a repayment comes first -/

/-- C19: for a caller resolved to a user, a repayment whose amount is absent or at most 0
is answered 400 Invalid repayment amount with the store as given, whatever the route id
(whether or not it finds a loan) and whoever owns the loan. -/
theorem postLoanRepayment_validation_first (limit : Nat) (s : MemoryStore) (xUserId : Option String)
    (u : User) (hu : getUserFromHeader s xUserId = some u) (id : String)
    (amount : Option ℚ) (now : String)
    (hbad : amount = none ∨ ∃ a, amount = some a ∧ a ≤ 0) :
    postLoanRepayment limit s xUserId id amount now
      = (s, ⟨400, .error "Invalid repayment amount"⟩) := by
  rcases hbad with h | ⟨a, h, ha⟩
  · simp [postLoanRepayment, hu, h]
  · simp [postLoanRepayment, hu, h, ha]

theorem postLoanRepayment_validation_first_witness :
    getUserFromHeader sampleStore (some "2") = some bob ∧
    findLoan sampleStore "999999" = none ∧
    bob.id ≠ aliceLoan.user_id ∧
    postLoanRepayment sampleLimit sampleStore (some "2") "999999" (some (-1000))
        "2024-02-01T00:00:00.000Z"
      = (sampleStore, ⟨400, .error "Invalid repayment amount"⟩) ∧
    postLoanRepayment sampleLimit sampleStore (some "2") "1" none "2024-02-01T00:00:00.000Z"
      = (sampleStore, ⟨400, .error "Invalid repayment amount"⟩) :=
  ⟨by decide, by decide, by decide,
   postLoanRepayment_validation_first sampleLimit sampleStore (some "2") bob (by decide) "999999"
     (some (-1000)) "2024-02-01T00:00:00.000Z" (Or.inr ⟨-1000, rfl, by decide⟩),
   by decide⟩

/-! ## Submission needs a resolved user -/

/-- C20: when the `X-User-Id` header is absent, or is a string whose `parseInt` is the id
of no stored user, the submission is answered 401 with the store as given, whatever the
body; the handler never reads the `X-Admin` header, so asserting it changes nothing. -/
theorem postLoans_unauthenticated (limit : Nat) (s : MemoryStore) (xUserId : Option String)
    (amount term_months : Option ℚ) (now : String)
    (hcaller : xUserId = none ∨
      ∃ h, xUserId = some h ∧ ∀ u ∈ s.users, parseInt h ≠ some (u.id : Int)) :
    getUserFromHeader s xUserId = none ∧
    postLoans limit s xUserId amount term_months now
      = (s, ⟨401, .error "Missing X-User-Id header for authentication"⟩) := by
  have hnone : getUserFromHeader s xUserId = none := by
    rcases hcaller with h | ⟨hd, h, hno⟩
    · rw [h]
      rfl
    · rw [h]
      unfold getUserFromHeader
      simp only
      split
      · rfl
      · rw [List.find?_eq_none]
        intro u hu
        simp only [decide_eq_true_eq]
        exact fun hc => hno u hu hc.symm
  exact ⟨hnone, by simp [postLoans, hnone]⟩

theorem postLoans_unauthenticated_witness :
    ((some "7" : Option String) = none ∨
      ∃ h, (some "7" : Option String) = some h ∧
        ∀ u ∈ sampleStore.users, parseInt h ≠ some (u.id : Int)) ∧
    postLoans sampleLimit sampleStore (some "7") (some 50000) (some 12) "2024-02-01T00:00:00.000Z"
      = (sampleStore, ⟨401, .error "Missing X-User-Id header for authentication"⟩) :=
  ⟨Or.inr ⟨"7", rfl, by decide⟩,
   (postLoans_unauthenticated sampleLimit sampleStore (some "7") (some 50000) (some 12)
     "2024-02-01T00:00:00.000Z" (Or.inr ⟨"7", rfl, by decide⟩)).2⟩

/-! ## Decision fields of stored loans -/

theorem mem_updateFirstLoan (p : Loan → Bool) (f : Loan → Loan) (ls : List Loan) (l : Loan)
    (h : l ∈ updateFirstLoan p f ls) :
    l ∈ ls ∨ ∃ l1 ∈ ls, p l1 = true ∧ l = f l1 := by
  induction ls with
  | nil => cases h
  | cons a ls ih =>
    unfold updateFirstLoan at h
    split at h
    · rename_i hp
      rcases List.mem_cons.mp h with h1 | h1
      · exact Or.inr ⟨a, List.mem_cons_self _ _, hp, h1⟩
      · exact Or.inl (List.mem_cons_of_mem _ h1)
    · rcases List.mem_cons.mp h with h1 | h1
      · exact Or.inl (h1 ▸ List.mem_cons_self _ _)
      · rcases ih h1 with h2 | ⟨l1, hl1, hp, he⟩
        · exact Or.inl (List.mem_cons_of_mem _ h2)
        · exact Or.inr ⟨l1, List.mem_cons_of_mem _ hl1, hp, he⟩

theorem getUserFromHeader_mem (s : MemoryStore) (xUserId : Option String) (u : User)
    (h : getUserFromHeader s xUserId = some u) : u ∈ s.users := by
  unfold getUserFromHeader at h
  split at h
  · exact absurd h (by simp)
  · split at h
    · exact absurd h (by simp)
    · exact List.mem_of_find?_eq_some h

/-- The loans after any request: the list as it was (and then a decision was not answered
200), one pending loan with null decision fields appended, or the store written by a
decision that was answered 200 for an admin principal on a loan it found. -/
theorem handle_loans (limit : Nat) (s : MemoryStore) (r : Request) :
    ((handle limit s r).1.loans = s.loans ∧
      ∀ n, isDecisionOn n r = true → (handle limit s r).2.status ≠ 200) ∨
    (∃ l, (handle limit s r).1.loans = s.loans ++ [l] ∧ l.status = .pending ∧
      l.decision_at = none ∧ l.decision_by = none ∧ ∀ n, isDecisionOn n r = false) ∨
    (∃ xUserId xAdmin id action now loan, r = .decision xUserId xAdmin id action now ∧
      (handle limit s r).2.status = 200 ∧ findLoan s id = some loan ∧
      (handle limit s r).1 = decidedStore s xUserId xAdmin id action now ∧
      (xAdmin = some "true" ∨ userIsAdmin (getUserFromHeader s xUserId) = true) ∧
      (action = some "approve" ∨ action = some "reject")) := by
  cases r with
  | register name email password now =>
    refine Or.inl ⟨?_, fun n hn => by simp [isDecisionOn] at hn⟩
    rcases postRegister_effect limit s name email password now with
      ⟨code, msg, h1, _, h⟩ | ⟨_, _, _, _, _, _, _, _, _, h⟩
    all_goals simp only [handle, h]
  | login email password =>
    exact Or.inl ⟨by simp only [handle, postLogin_store],
      fun n hn => by simp [isDecisionOn] at hn⟩
  | submitLoan xUserId amount term_months now =>
    rcases postLoans_effect limit s xUserId amount term_months now with
      ⟨_, _, _, _, h⟩ | ⟨u, a, t, id, _, _, _, _, h⟩
    · exact Or.inl ⟨by simp only [handle, h], fun n hn => by simp [isDecisionOn] at hn⟩
    · exact Or.inr (Or.inl ⟨newLoan id u a t now, by simp only [handle, h], rfl, rfl, rfl,
        fun n => rfl⟩)
  | listLoans xUserId xAdmin =>
    exact Or.inl ⟨by simp only [handle, getLoans_store],
      fun n hn => by simp [isDecisionOn] at hn⟩
  | decision xUserId xAdmin id action now =>
    by_cases hs : (postLoanDecision s xUserId xAdmin id action now).2.status = 200
    · obtain ⟨hadmin, hact, loan, hloan, hkey⟩ :=
        postLoanDecision_success s xUserId xAdmin id action now hs
      exact Or.inr (Or.inr ⟨xUserId, xAdmin, id, action, now, loan, rfl, hs, hloan,
        by simp only [handle, hkey], hadmin, hact⟩)
    · refine Or.inl ⟨?_, fun n _ => hs⟩
      rcases postLoanDecision_effect s xUserId xAdmin id action now with
        ⟨_, _, _, _, h⟩ | ⟨_, _, _, _, _, h⟩
      · simp only [handle, h]
      · rw [h] at hs
        exact absurd rfl hs
  | repayment xUserId id amount now =>
    refine Or.inl ⟨?_, fun n hn => by simp [isDecisionOn] at hn⟩
    rcases postLoanRepayment_effect limit s xUserId id amount now with
      ⟨_, _, _, _, h⟩ | ⟨_, _, _, _, _, _, _, _, h⟩
    all_goals simp only [handle, h]
  | listRepayments xUserId id =>
    exact Or.inl ⟨by simp only [handle, getLoanRepayments_store],
      fun n hn => by simp [isDecisionOn] at hn⟩

theorem decisionStatus_ne_pending (action : Option String) :
    decisionStatus action ≠ .pending := by
  unfold decisionStatus
  split <;> decide

/-- In a reachable store a loan has a decision time exactly when it is not pending. -/
theorem reachable_decision_at_iff (limit : Nat) (s : MemoryStore) (h : Reachable limit s) :
    ∀ l ∈ s.loans, (l.decision_at ≠ none ↔ l.status ≠ .pending) := by
  induction h with
  | init => intro l hl; cases hl
  | step s r _ ih =>
    rcases handle_loans limit s r with ⟨h, _⟩ | ⟨l0, h, hst, hat, _, _⟩ |
      ⟨xUserId, xAdmin, id, action, now, loan, _, _, _, h, _, _⟩
    · rw [h]
      exact ih
    · rw [h]
      intro l hl
      rcases List.mem_append.mp hl with hl | hl
      · exact ih l hl
      · rw [List.mem_singleton] at hl
        subst hl
        simp [hst, hat]
    · rw [h]
      intro l hl
      rcases mem_updateFirstLoan _ _ _ _ hl with hl | ⟨l1, _, _, he⟩
      · exact ih l hl
      · subst he
        simp [applyDecision, decisionStatus_ne_pending]

theorem succeedsOn_eq_true (limit : Nat) (s : MemoryStore) (r : Request) (n : Nat) :
    succeedsOn limit s r n = true
      ↔ isDecisionOn n r = true ∧ (handle limit s r).2.status = 200 := by
  simp [succeedsOn]

/-- One request: some stored loan with id `n` has a decision time afterwards exactly when
the request was a decision on `n` answered 200 or such a loan was stored before. -/
theorem handle_decided_iff (limit : Nat) (s : MemoryStore) (r : Request) (n : Nat) :
    (∃ l ∈ (handle limit s r).1.loans, l.id = n ∧ l.decision_at ≠ none) ↔
      (succeedsOn limit s r n = true ∨
        ∃ l ∈ s.loans, l.id = n ∧ l.decision_at ≠ none) := by
  rcases handle_loans limit s r with ⟨h, hno⟩ | ⟨l0, h, _, hat, _, hno⟩ |
    ⟨xUserId, xAdmin, id, action, now, loan, hr, hs, hloan, h, _, _⟩
  · have hf : ¬ succeedsOn limit s r n = true := by
      rw [succeedsOn_eq_true]
      exact fun hc => hno n hc.1 hc.2
    rw [h]
    exact ⟨fun hx => Or.inr hx, fun hx => hx.resolve_left hf⟩
  · have hf : ¬ succeedsOn limit s r n = true := by
      rw [succeedsOn_eq_true, hno n]
      exact fun hc => absurd hc.1 (by simp)
    rw [h]
    constructor
    · rintro ⟨l, hl, hid, hd⟩
      rcases List.mem_append.mp hl with hl | hl
      · exact Or.inr ⟨l, hl, hid, hd⟩
      · rw [List.mem_singleton] at hl
        subst hl
        exact absurd hat hd
    · intro hx
      obtain ⟨l, hl, hid, hd⟩ := hx.resolve_left hf
      exact ⟨l, List.mem_append_left _ hl, hid, hd⟩
  · have hparse := parseInt_eq_of_find s id loan hloan
    have hfound : ∀ m : Nat, parseInt id = some (m : Int) →
        ∃ l ∈ (decidedStore s xUserId xAdmin id action now).loans,
          l.id = m ∧ l.decision_at ≠ none := by
      intro m hm
      have hf := findLoan_decidedStore s xUserId xAdmin id action now
      rw [hloan] at hf
      refine ⟨_, List.mem_of_find?_eq_some hf, ?_, by simp [applyDecision]⟩
      rw [hparse] at hm
      exact_mod_cast Option.some.inj hm
    have hsucc : succeedsOn limit s r n = true ↔ parseInt id = some (n : Int) := by
      rw [succeedsOn_eq_true, hr]
      simp only [isDecisionOn, decide_eq_true_eq]
      rw [hr] at hs
      exact ⟨fun hc => hc.1, fun hc => ⟨hc, hs⟩⟩
    rw [h, hsucc]
    constructor
    · rintro ⟨l, hl, hid, hd⟩
      rcases mem_updateFirstLoan _ _ _ _ hl with hl | ⟨l1, _, hp, he⟩
      · exact Or.inr ⟨l, hl, hid, hd⟩
      · left
        simp only [isLoan, decide_eq_true_eq] at hp
        rw [← hp, ← hid, he]
        rfl
    · rintro (hx | ⟨l, hl, hid, hd⟩)
      · exact hfound n hx
      · by_cases hp : isLoan id l = true
        · apply hfound n
          simp only [isLoan, decide_eq_true_eq] at hp
          rw [← hp, hid]
        · exact ⟨l, updateFirstLoan_mem_of_not _ _ _ l hl (by simpa using hp), hid, hd⟩

/-- A run of requests: some stored loan with id `n` has a decision time at the end exactly
when a decision on `n` was answered 200 along the run or such a loan was stored at the
start. -/
theorem run_decided_iff (limit : Nat) (rs : List Request) :
    ∀ (s : MemoryStore) (n : Nat),
      (∃ l ∈ (run limit s rs).loans, l.id = n ∧ l.decision_at ≠ none) ↔
        (everDecided limit s rs n = true ∨
          ∃ l ∈ s.loans, l.id = n ∧ l.decision_at ≠ none) := by
  induction rs with
  | nil =>
    intro s n
    simp [run, everDecided]
  | cons r rs ih =>
    intro s n
    rw [run_cons, ih, handle_decided_iff]
    simp only [everDecided, Bool.or_eq_true]
    tauto

theorem run_append_singleton (limit : Nat) (s : MemoryStore) (rs : List Request) (r : Request) :
    run limit s (rs ++ [r]) = (handle limit (run limit s rs) r).1 := by
  simp [run, List.foldl_append]

/-- Reachable stores are the stores some run of requests from the initial store ends in. -/
theorem reachable_iff_run (limit : Nat) (s : MemoryStore) :
    Reachable limit s ↔ ∃ rs, s = run limit memoryStore rs := by
  constructor
  · intro h
    induction h with
    | init => exact ⟨[], rfl⟩
    | step s r _ ih =>
      obtain ⟨rs, hrs⟩ := ih
      exact ⟨rs ++ [r], by rw [run_append_singleton, hrs]⟩
  · rintro ⟨rs, rfl⟩
    exact reachable_run limit _ _ Reachable.init

/-- C21: in the store that any run of requests from the initial store ends in (these are
the reachable stores, `reachable_iff_run`), every stored loan has a non-null
`decision_at` exactly when a decision on its id was answered 200 during the run, and
exactly when its status is not pending. -/
theorem decision_at_iff_decided (limit : Nat) (rs : List Request) :
    ∀ l ∈ (run limit memoryStore rs).loans,
      (l.decision_at ≠ none ↔ everDecided limit memoryStore rs l.id = true) ∧
      (l.decision_at ≠ none ↔ l.status ≠ .pending) := by
  intro l hl
  have hreach : Reachable limit (run limit memoryStore rs) := reachable_run limit _ _ Reachable.init
  refine ⟨?_, reachable_decision_at_iff limit _ hreach l hl⟩
  have hkey := run_decided_iff limit rs memoryStore l.id
  have hempty : ¬ ∃ l0 ∈ memoryStore.loans, l0.id = l.id ∧ l0.decision_at ≠ none := by
    rintro ⟨l0, hl0, _⟩
    cases hl0
  have hnodup : ((run limit memoryStore rs).loans.map Loan.id).Nodup := by
    rw [(reachable_ids_range limit _ hreach).2.1]
    exact List.nodup_range' 1 _
  constructor
  · intro hd
    exact (hkey.mp ⟨l, hl, rfl, hd⟩).resolve_right hempty
  · intro he
    obtain ⟨l2, hl2, hid, hd⟩ := hkey.mpr (Or.inl he)
    have heq : l2 = l := List.inj_on_of_nodup_map hnodup hl2 hl hid
    rw [← heq]
    exact hd

theorem decision_at_iff_decided_witness :
    approvedLoanA ∈ (run sampleLimit memoryStore approvedThenSubmitted).loans ∧
    pendingLoanA ∈ (run sampleLimit memoryStore approvedThenSubmitted).loans ∧
    everDecided sampleLimit memoryStore approvedThenSubmitted approvedLoanA.id = true ∧
    everDecided sampleLimit memoryStore approvedThenSubmitted pendingLoanA.id = false ∧
    ((approvedLoanA.decision_at ≠ none
        ↔ everDecided sampleLimit memoryStore approvedThenSubmitted approvedLoanA.id = true) ∧
      (approvedLoanA.decision_at ≠ none ↔ approvedLoanA.status ≠ .pending)) :=
  ⟨by decide, by decide, by decide, by decide,
   decision_at_iff_decided sampleLimit approvedThenSubmitted approvedLoanA (by decide)⟩

/-! ## Users and repayments are append-only -/

theorem append_singleton_ne {α : Type} (l : List α) (a : α) : l ++ [a] ≠ l := by
  intro h
  have := congrArg List.length h
  simp at this

/-- The users and repayments after any request: both lists as they were, or a
registration answered 201 that appended one user, or a repayment answered 201 that
appended one repayment. -/
theorem handle_users_repayments (limit : Nat) (s : MemoryStore) (r : Request) :
    ((handle limit s r).1.users = s.users ∧ (handle limit s r).1.repayments = s.repayments ∧
      ¬ (isRegister r = true ∧ (handle limit s r).2.status = 201) ∧
      ¬ (isRepayment r = true ∧ (handle limit s r).2.status = 201)) ∨
    (isRegister r = true ∧ (handle limit s r).2.status = 201 ∧
      (handle limit s r).1.repayments = s.repayments ∧
      ∃ u, (handle limit s r).1.users = s.users ++ [u]) ∨
    (isRepayment r = true ∧ (handle limit s r).2.status = 201 ∧
      (handle limit s r).1.users = s.users ∧
      ∃ p, (handle limit s r).1.repayments = s.repayments ++ [p]) := by
  cases r with
  | register name email password now =>
    rcases postRegister_effect limit s name email password now with
      ⟨code, msg, h1, _, h⟩ | ⟨_, _, _, _, _, _, _, _, _, h⟩
    · exact Or.inl (by simp [handle, h, isRepayment, h1])
    · exact Or.inr (Or.inl (by simp [handle, h, isRegister]))
  | login email password =>
    exact Or.inl (by simp [handle, postLogin_store, isRegister, isRepayment])
  | submitLoan xUserId amount term_months now =>
    rcases postLoans_effect limit s xUserId amount term_months now with
      ⟨_, _, _, _, h⟩ | ⟨_, _, _, _, _, _, _, _, h⟩
    · exact Or.inl (by simp [handle, h, isRegister, isRepayment])
    · exact Or.inl (by simp [handle, h, isRegister, isRepayment])
  | listLoans xUserId xAdmin =>
    exact Or.inl (by simp [handle, getLoans_store, isRegister, isRepayment])
  | decision xUserId xAdmin id action now =>
    rcases postLoanDecision_effect s xUserId xAdmin id action now with
      ⟨_, _, _, _, h⟩ | ⟨_, _, _, _, _, h⟩
    · exact Or.inl (by simp [handle, h, isRegister, isRepayment])
    · exact Or.inl (by simp [handle, h, isRegister, isRepayment])
  | repayment xUserId id amount now =>
    rcases postLoanRepayment_effect limit s xUserId id amount now with
      ⟨code, msg, h1, _, h⟩ | ⟨_, _, _, _, _, _, _, _, h⟩
    · exact Or.inl (by simp [handle, h, isRegister, h1])
    · exact Or.inr (Or.inr (by simp [handle, h, isRepayment]))
  | listRepayments xUserId id =>
    exact Or.inl (by simp [handle, getLoanRepayments_store, isRegister, isRepayment])

/-- C22: for every store and every request, the users list and the repayments list
before the request are prefixes of the lists after it; the users list changes exactly
when the request is a registration answered 201, and then by one appended user; the
repayments list changes exactly when the request is a repayment answered 201, and then
by one appended repayment. -/
theorem users_repayments_append_only (limit : Nat) (s : MemoryStore) (r : Request) :
    s.users <+: (handle limit s r).1.users ∧ s.repayments <+: (handle limit s r).1.repayments ∧
    ((handle limit s r).1.users ≠ s.users
      ↔ isRegister r = true ∧ (handle limit s r).2.status = 201) ∧
    ((handle limit s r).1.users ≠ s.users →
      ∃ u, (handle limit s r).1.users = s.users ++ [u]) ∧
    ((handle limit s r).1.repayments ≠ s.repayments
      ↔ isRepayment r = true ∧ (handle limit s r).2.status = 201) ∧
    ((handle limit s r).1.repayments ≠ s.repayments →
      ∃ p, (handle limit s r).1.repayments = s.repayments ++ [p]) := by
  rcases handle_users_repayments limit s r with ⟨hu, hp, hnr, hnp⟩ | ⟨hr, hs, hp, u, hu⟩ |
    ⟨hr, hs, hu, p, hp⟩
  · rw [hu, hp]
    exact ⟨List.prefix_refl _, List.prefix_refl _,
      ⟨fun h => absurd rfl h, fun h => absurd h hnr⟩, fun h => absurd rfl h,
      ⟨fun h => absurd rfl h, fun h => absurd h hnp⟩, fun h => absurd rfl h⟩
  · have hnp : ¬ (isRepayment r = true ∧ (handle limit s r).2.status = 201) := by
      intro hc
      cases r <;> simp [isRegister, isRepayment] at hr hc
    rw [hu, hp]
    exact ⟨List.prefix_append _ _, List.prefix_refl _,
      ⟨fun _ => ⟨hr, hs⟩, fun _ => append_singleton_ne _ _⟩, fun _ => ⟨u, rfl⟩,
      ⟨fun h => absurd rfl h, fun h => absurd h hnp⟩, fun h => absurd rfl h⟩
  · have hnr : ¬ (isRegister r = true ∧ (handle limit s r).2.status = 201) := by
      intro hc
      cases r <;> simp [isRegister, isRepayment] at hr hc
    rw [hu, hp]
    exact ⟨List.prefix_refl _, List.prefix_append _ _,
      ⟨fun h => absurd rfl h, fun h => absurd h hnr⟩, fun h => absurd rfl h,
      ⟨fun _ => ⟨hr, hs⟩, fun _ => append_singleton_ne _ _⟩, fun _ => ⟨p, rfl⟩⟩

theorem users_repayments_append_only_witness :
    (handle sampleLimit sampleStore (.repayment (some "1") "1" (some 5000)
        "2024-02-01T00:00:00.000Z")).1.repayments
      = sampleStore.repayments ++ [⟨1, 1, 5000, "2024-02-01T00:00:00.000Z"⟩] ∧
    ((handle sampleLimit sampleStore (.repayment (some "1") "1" (some 5000)
        "2024-02-01T00:00:00.000Z")).1.repayments ≠ sampleStore.repayments
      ↔ isRepayment (.repayment (some "1") "1" (some 5000) "2024-02-01T00:00:00.000Z") = true ∧
        (handle sampleLimit sampleStore (.repayment (some "1") "1" (some 5000)
          "2024-02-01T00:00:00.000Z")).2.status = 201) :=
  ⟨by decide,
   (users_repayments_append_only sampleLimit sampleStore (.repayment (some "1") "1" (some 5000)
     "2024-02-01T00:00:00.000Z")).2.2.2.2.1⟩

/-! ## Deciding again -/

theorem getUserFromHeader_decidedStore (s : MemoryStore) (xUserId xAdmin : Option String)
    (id : String) (action : Option String) (now : String) (x : Option String) :
    getUserFromHeader (decidedStore s xUserId xAdmin id action now) x
      = getUserFromHeader s x := rfl

/-- C24: let the route id find a loan, whatever its status, and let two decisions with
valid actions be made on it one after the other by admin principals.  Both are answered
200 with the status of their own action, and afterwards the status stored on the loan is
that of the second action, the same as if only the second decision had been made; so
approve followed by reject stores rejected, and repeating an action stores what one
decision stores. -/
theorem last_decision_wins (s : MemoryStore) (x1 xa1 x2 xa2 : Option String) (id : String)
    (a1 a2 : Option String) (now1 now2 : String) (L : Loan)
    (hadm1 : xa1 = some "true" ∨ userIsAdmin (getUserFromHeader s x1) = true)
    (hadm2 : xa2 = some "true" ∨ userIsAdmin (getUserFromHeader s x2) = true)
    (hL : findLoan s id = some L)
    (h1 : a1 = some "approve" ∨ a1 = some "reject")
    (h2 : a2 = some "approve" ∨ a2 = some "reject") :
    (postLoanDecision s x1 xa1 id a1 now1).2 = ⟨200, .decided L.id (decisionStatus a1)⟩ ∧
    (postLoanDecision (postLoanDecision s x1 xa1 id a1 now1).1 x2 xa2 id a2 now2).2
      = ⟨200, .decided L.id (decisionStatus a2)⟩ ∧
    (findLoan (postLoanDecision (postLoanDecision s x1 xa1 id a1 now1).1
        x2 xa2 id a2 now2).1 id).map Loan.status = some (decisionStatus a2) ∧
    (findLoan (postLoanDecision s x2 xa2 id a2 now2).1 id).map Loan.status
      = some (decisionStatus a2) ∧
    (a1 = a2 →
      (findLoan (postLoanDecision (postLoanDecision s x1 xa1 id a1 now1).1
          x2 xa2 id a2 now2).1 id).map Loan.status
        = (findLoan (postLoanDecision s x1 xa1 id a1 now1).1 id).map Loan.status) := by
  have e1 := postLoanDecision_of_admin s x1 xa1 id a1 now1 hadm1 h1
  rw [hL] at e1
  have e2 := postLoanDecision_of_admin s x2 xa2 id a2 now2 hadm2 h2
  rw [hL] at e2
  have hf1 : findLoan (decidedStore s x1 xa1 id a1 now1) id
      = some (applyDecision (decisionStatus a1) (decisionBy s x1 xa1) now1 L) := by
    rw [findLoan_decidedStore, hL]
    rfl
  have hadm2b : xa2 = some "true" ∨
      userIsAdmin (getUserFromHeader (decidedStore s x1 xa1 id a1 now1) x2) = true := by
    rw [getUserFromHeader_decidedStore]
    exact hadm2
  have e12 := postLoanDecision_of_admin (decidedStore s x1 xa1 id a1 now1) x2 xa2 id a2 now2
    hadm2b h2
  rw [hf1] at e12
  have hs12 : (findLoan (decidedStore (decidedStore s x1 xa1 id a1 now1) x2 xa2 id a2 now2)
      id).map Loan.status = some (decisionStatus a2) := by
    rw [findLoan_decidedStore, hf1]
    rfl
  have hs2 : (findLoan (decidedStore s x2 xa2 id a2 now2) id).map Loan.status
      = some (decisionStatus a2) := by
    rw [findLoan_decidedStore, hL]
    rfl
  rw [e1, e12, e2]
  refine ⟨rfl, rfl, hs12, hs2, ?_⟩
  intro h
  rw [hs12, hf1, h]
  rfl

theorem last_decision_wins_witness :
    findLoan sampleStore "1" = some aliceLoan ∧
    (findLoan (postLoanDecision (postLoanDecision sampleStore none (some "true") "1"
        (some "approve") "2024-02-01T00:00:00.000Z").1 (some "3") none "1" (some "reject")
        "2024-02-02T00:00:00.000Z").1 "1").map Loan.status = some .rejected ∧
    (findLoan (postLoanDecision (postLoanDecision sampleStore none (some "true") "1"
        (some "approve") "2024-02-01T00:00:00.000Z").1 (some "3") none "1" (some "reject")
        "2024-02-02T00:00:00.000Z").1 "1").map Loan.status
      = some (decisionStatus (some "reject")) :=
  ⟨by decide, by decide,
   (last_decision_wins sampleStore none (some "true") (some "3") none "1" (some "approve")
     (some "reject") "2024-02-01T00:00:00.000Z" "2024-02-02T00:00:00.000Z" aliceLoan
     (Or.inl rfl) (Or.inr (by decide)) (by decide) (Or.inl rfl) (Or.inr rfl)).2.2.1⟩

/-! ## No admin user exists in memory mode -/

theorem userIsAdmin_of_no_admin (s : MemoryStore) (hs : ∀ u ∈ s.users, u.is_admin = 0)
    (xUserId : Option String) : userIsAdmin (getUserFromHeader s xUserId) = false := by
  cases hg : getUserFromHeader s xUserId with
  | none => rfl
  | some u => simp [userIsAdmin, hs u (getUserFromHeader_mem s xUserId u hg)]

/-- A repayment answered 201: the caller resolved to a user, the amount is present, the
route id found a loan, and the user owns it or has `is_admin` set. -/
theorem postLoanRepayment_success (limit : Nat) (s : MemoryStore) (xUserId : Option String)
    (id : String)
    (amount : Option ℚ) (now : String)
    (hs : (postLoanRepayment limit s xUserId id amount now).2.status = 201) :
    ∃ u loan, getUserFromHeader s xUserId = some u ∧ findLoan s id = some loan ∧
      (loan.user_id = u.id ∨ u.is_admin ≠ 0) := by
  unfold postLoanRepayment at hs
  split at hs
  · simp at hs
  · rename_i u hu
    split at hs
    · simp at hs
    · split at hs
      · simp at hs
      · split at hs
        · simp at hs
        · rename_i loan hloan
          split at hs
          · simp at hs
          · rename_i hcond
            refine ⟨u, loan, hu, hloan, ?_⟩
            by_contra hn
            push_neg at hn
            apply hcond
            simp [hn.1, hn.2]

/-- In a reachable store no user has `is_admin` set and no loan has a `decision_by`. -/
theorem no_admin_no_decision_by_of_reachable (limit : Nat) (s : MemoryStore)
    (h : Reachable limit s) :
    (∀ u ∈ s.users, u.is_admin = 0) ∧ (∀ l ∈ s.loans, l.decision_by = none) := by
  induction h with
  | init => exact ⟨fun u hu => (by cases hu), fun l hl => (by cases hl)⟩
  | step s r _ ih =>
    obtain ⟨ihu, ihl⟩ := ih
    constructor
    · rcases handle_effect limit s r with h | ⟨u, h, _, hadm⟩ | ⟨_, h, _⟩ |
        ⟨_, _, _, _, _, _, h⟩ | ⟨_, h, _⟩
      · rw [h]
        exact ihu
      · rw [h]
        intro v hv
        rcases List.mem_append.mp hv with hv | hv
        · exact ihu v hv
        · rw [List.mem_singleton] at hv
          rw [hv]
          exact hadm
      · rw [h]
        exact ihu
      · rw [h]
        exact ihu
      · rw [h]
        exact ihu
    · rcases handle_loans limit s r with ⟨h, _⟩ | ⟨l0, h, _, _, hby, _⟩ |
        ⟨xUserId, xAdmin, id, action, now, loan, _, _, _, h, hadmin, _⟩
      · rw [h]
        exact ihl
      · rw [h]
        intro l hl
        rcases List.mem_append.mp hl with hl | hl
        · exact ihl l hl
        · rw [List.mem_singleton] at hl
          rw [hl]
          exact hby
      · have hflag : xAdmin = some "true" := by
          rcases hadmin with hx | hx
          · exact hx
          · rw [userIsAdmin_of_no_admin s ihu xUserId] at hx
            exact absurd hx (by simp)
        rw [h]
        intro l hl
        rcases mem_updateFirstLoan _ _ _ _ hl with hl | ⟨l1, _, _, he⟩
        · exact ihl l hl
        · rw [he]
          simp [applyDecision, decisionBy, hflag]

/-- C25: in every store reachable from the initial store every user has `is_admin` equal
to 0; hence a decision is answered 200 only with the `X-Admin` header equal to true, every
stored loan (decided or not) has `decision_by` null, and a repayment is answered 201 only
when the resolved caller is the owner of the loan found. -/
theorem reachable_no_admin (limit : Nat) (s : MemoryStore) (h : Reachable limit s) :
    (∀ u ∈ s.users, u.is_admin = 0) ∧
    (∀ xUserId xAdmin id action now,
      (postLoanDecision s xUserId xAdmin id action now).2.status = 200 →
      xAdmin = some "true") ∧
    (∀ l ∈ s.loans, l.decision_by = none) ∧
    (∀ xUserId id amount now, (postLoanRepayment limit s xUserId id amount now).2.status = 201 →
      ∃ u loan, getUserFromHeader s xUserId = some u ∧ findLoan s id = some loan ∧
        loan.user_id = u.id) := by
  obtain ⟨hu, hl⟩ := no_admin_no_decision_by_of_reachable limit s h
  refine ⟨hu, ?_, hl, ?_⟩
  · intro xUserId xAdmin id action now hs
    obtain ⟨hadmin, _⟩ := postLoanDecision_success s xUserId xAdmin id action now hs
    rcases hadmin with hx | hx
    · exact hx
    · rw [userIsAdmin_of_no_admin s hu xUserId] at hx
      exact absurd hx (by simp)
  · intro xUserId id amount now hs
    obtain ⟨u, loan, hg, hloan, hown⟩ :=
      postLoanRepayment_success limit s xUserId id amount now hs
    refine ⟨u, loan, hg, hloan, ?_⟩
    rcases hown with ho | ho
    · exact ho
    · exact absurd (hu u (getUserFromHeader_mem s xUserId u hg)) ho

theorem reachable_no_admin_witness :
    Reachable sampleLimit (run sampleLimit memoryStore approvedThenSubmitted) ∧
    (run sampleLimit memoryStore approvedThenSubmitted).users.length = 1 ∧
    (run sampleLimit memoryStore approvedThenSubmitted).loans.map Loan.status
      = [.approved, .pending] ∧
    (∀ u ∈ (run sampleLimit memoryStore approvedThenSubmitted).users, u.is_admin = 0) ∧
    (∀ l ∈ (run sampleLimit memoryStore approvedThenSubmitted).loans, l.decision_by = none) :=
  ⟨reachable_run sampleLimit _ _ Reachable.init, by decide, by decide,
   (reachable_no_admin sampleLimit _ (reachable_run sampleLimit _ _ Reachable.init)).1,
   (reachable_no_admin sampleLimit _ (reachable_run sampleLimit _ _ Reachable.init)).2.2.1⟩

/-! ## Validation of a loan application -/

theorem postLoans_reject_absent (limit : Nat) (s : MemoryStore) (xUserId : Option String)
    (u : User) (hu : getUserFromHeader s xUserId = some u) (amount term_months : Option ℚ)
    (now : String)
    (h : amount = none ∨ term_months = none ∨ term_months = some 0) :
    postLoans limit s xUserId amount term_months now
      = (s, ⟨400, .error "amount and term_months required"⟩) := by
  cases amount with
  | none => simp [postLoans, hu]
  | some a =>
    cases term_months with
    | none => simp [postLoans, hu]
    | some t =>
      have ht : t = 0 := by simpa using h
      simp [postLoans, hu, truthyNum, ht]

theorem postLoans_reject_amount (limit : Nat) (s : MemoryStore) (xUserId : Option String)
    (u : User) (hu : getUserFromHeader s xUserId = some u) (a : ℚ)
    (term_months : Option ℚ) (now : String) (ha : a ≤ 0 ∨ 1000000 < a) :
    ∃ msg, postLoans limit s xUserId (some a) term_months now
      = (s, ⟨400, .error msg⟩) := by
  cases term_months with
  | none => exact ⟨"amount and term_months required", by simp [postLoans, hu]⟩
  | some t =>
    by_cases h0 : a = 0 ∨ t = 0
    · exact ⟨"amount and term_months required", by simp [postLoans, hu, truthyNum, h0]⟩
    · push_neg at h0
      exact ⟨"Invalid loan amount", by simp [postLoans, hu, truthyNum, h0.1, h0.2, ha]⟩

/-- The submission handler once validation has passed: the outcome is that of the id
expression. -/
theorem postLoans_passed (limit : Nat) (s : MemoryStore) (xUserId : Option String) (u : User)
    (hu : getUserFromHeader s xUserId = some u) (a t : ℚ) (now : String)
    (ha : 0 < a) (ha2 : a ≤ 1000000) (ht : t ≠ 0) :
    postLoans limit s xUserId (some a) (some t) now
      = match nextId limit (s.loans.map Loan.id) with
        | none => (s, ⟨500, .error "Failed to create loan"⟩)
        | some id =>
          ({ s with loans := s.loans ++ [newLoan id u a t now] },
           ⟨201, .loanCreated id .pending⟩) := by
  have ha0 : a ≠ 0 := ne_of_gt ha
  simp only [postLoans, hu, truthyNum]
  simp [ha0, ht, not_le.mpr ha, not_lt.mpr ha2, newLoan]

theorem postLoans_passed_within (limit : Nat) (s : MemoryStore) (xUserId : Option String)
    (u : User) (hu : getUserFromHeader s xUserId = some u) (a t : ℚ) (now : String)
    (ha : 0 < a) (ha2 : a ≤ 1000000) (ht : t ≠ 0) (hlen : s.loans.length ≤ limit) :
    ∃ id, nextId limit (s.loans.map Loan.id) = some id ∧
      postLoans limit s xUserId (some a) (some t) now
        = ({ s with loans := s.loans ++ [newLoan id u a t now] },
           ⟨201, .loanCreated id .pending⟩) := by
  obtain ⟨id, hid⟩ := nextId_of_le limit (s.loans.map Loan.id) (by simpa using hlen)
  refine ⟨id, hid, ?_⟩
  rw [postLoans_passed limit s xUserId u hu a t now ha ha2 ht, hid]

theorem postLoans_passed_beyond (limit : Nat) (s : MemoryStore) (xUserId : Option String)
    (u : User) (hu : getUserFromHeader s xUserId = some u) (a t : ℚ) (now : String)
    (ha : 0 < a) (ha2 : a ≤ 1000000) (ht : t ≠ 0) (hlen : limit < s.loans.length) :
    postLoans limit s xUserId (some a) (some t) now
      = (s, ⟨500, .error "Failed to create loan"⟩) := by
  rw [postLoans_passed limit s xUserId u hu a t now ha ha2 ht,
    nextId_of_lt limit (s.loans.map Loan.id) (by simpa using hlen)]

/-- C3 (as stated, refuted): for the resolved caller 1 of the sample store, an application
with amount 50000 and the negative term -12 is answered 201 and a loan is pushed. -/
theorem postLoans_negative_term_accepted :
    getUserFromHeader sampleStore (some "1") = some alice ∧
    (-12 : ℚ) ≤ 0 ∧
    (postLoans sampleLimit sampleStore (some "1") (some 50000) (some (-12))
        "2024-02-01T00:00:00.000Z").2 = ⟨201, .loanCreated 2 .pending⟩ ∧
    (postLoans sampleLimit sampleStore (some "1") (some 50000) (some (-12))
        "2024-02-01T00:00:00.000Z").1.loans.length = sampleStore.loans.length + 1 := by
  decide

/-- C3 (amended): for a caller resolved to a user, the submission is answered 400 and the
store is returned as given whenever amount or term_months is absent, amount is at most 0
or above 1000000, or term_months is 0; in every other case, a negative term_months
included, it is never answered 400, and it is answered 201 on every store whose number
of loans is within the argument bound of the engine. -/
theorem postLoans_validation (limit : Nat) (s : MemoryStore) (xUserId : Option String)
    (u : User) (hu : getUserFromHeader s xUserId = some u) (amount term_months : Option ℚ)
    (now : String) :
    ((amount = none ∨ term_months = none ∨ term_months = some 0 ∨
        ∃ a, amount = some a ∧ (a ≤ 0 ∨ 1000000 < a)) →
      ∃ msg, postLoans limit s xUserId amount term_months now
        = (s, ⟨400, .error msg⟩)) ∧
    (¬ (amount = none ∨ term_months = none ∨ term_months = some 0 ∨
        ∃ a, amount = some a ∧ (a ≤ 0 ∨ 1000000 < a)) →
      (postLoans limit s xUserId amount term_months now).2.status ≠ 400 ∧
      (s.loans.length ≤ limit →
        (postLoans limit s xUserId amount term_months now).2.status = 201)) := by
  constructor
  · rintro (h | h | h | ⟨a, rfl, ha⟩)
    · exact ⟨_, postLoans_reject_absent limit s xUserId u hu _ _ now (Or.inl h)⟩
    · exact ⟨_, postLoans_reject_absent limit s xUserId u hu _ _ now (Or.inr (Or.inl h))⟩
    · exact ⟨_, postLoans_reject_absent limit s xUserId u hu _ _ now (Or.inr (Or.inr h))⟩
    · exact postLoans_reject_amount limit s xUserId u hu a _ now ha
  · intro h
    push_neg at h
    obtain ⟨h1, h2, h3, h4⟩ := h
    cases amount with
    | none => exact absurd rfl h1
    | some a =>
      cases term_months with
      | none => exact absurd rfl h2
      | some t =>
        have hb := h4 a rfl
        have ht : t ≠ 0 := fun h0 => h3 (by rw [h0])
        constructor
        · rw [postLoans_passed limit s xUserId u hu a t now hb.1 hb.2 ht]
          cases nextId limit (s.loans.map Loan.id) <;> simp
        · intro hlen
          obtain ⟨id, _, hres⟩ :=
            postLoans_passed_within limit s xUserId u hu a t now hb.1 hb.2 ht hlen
          rw [hres]

theorem postLoans_validation_witness :
    getUserFromHeader sampleStore (some "1") = some alice ∧
    (((some 50000 : Option ℚ) = none ∨ (some 0 : Option ℚ) = none ∨
        (some 0 : Option ℚ) = some 0 ∨
        ∃ a, (some 50000 : Option ℚ) = some a ∧ (a ≤ 0 ∨ 1000000 < a)) →
      ∃ msg, postLoans sampleLimit sampleStore (some "1") (some 50000) (some 0)
        "2024-02-01T00:00:00.000Z" = (sampleStore, ⟨400, .error msg⟩)) :=
  ⟨by decide,
   (postLoans_validation sampleLimit sampleStore (some "1") alice (by decide) (some 50000)
     (some 0) "2024-02-01T00:00:00.000Z").1⟩

/-- C4: for a caller resolved to a user and a positive term, an amount outside
(0, 1000000] is answered 400 with the store as given on every store, so 0, -1 and 1000001
are rejected.  On a store whose number of loans is within the argument bound of the
engine, the answer is 201 with status pending exactly when the amount lies in
(0, 1000000], so 1000000 is accepted.  On a store with more loans than the bound the id
expression throws, and an amount in (0, 1000000], 1000000 included, is answered 500
Failed to create loan with the store as given. -/
theorem postLoans_amount_bounds (limit : Nat) (s : MemoryStore) (xUserId : Option String)
    (u : User) (hu : getUserFromHeader s xUserId = some u) (t : ℚ) (ht : 0 < t)
    (now : String) :
    (∀ a : ℚ, ¬ (0 < a ∧ a ≤ 1000000) →
      ∃ msg, postLoans limit s xUserId (some a) (some t) now = (s, ⟨400, .error msg⟩)) ∧
    (∃ msg, postLoans limit s xUserId (some 0) (some t) now = (s, ⟨400, .error msg⟩)) ∧
    (∃ msg, postLoans limit s xUserId (some (-1)) (some t) now
      = (s, ⟨400, .error msg⟩)) ∧
    (∃ msg, postLoans limit s xUserId (some 1000001) (some t) now
      = (s, ⟨400, .error msg⟩)) ∧
    (s.loans.length ≤ limit →
      (∀ a : ℚ, (∃ id, (postLoans limit s xUserId (some a) (some t) now).2
            = ⟨201, .loanCreated id .pending⟩) ↔ 0 < a ∧ a ≤ 1000000) ∧
      ∃ id, (postLoans limit s xUserId (some 1000000) (some t) now).2
        = ⟨201, .loanCreated id .pending⟩) ∧
    (limit < s.loans.length →
      (∀ a : ℚ, 0 < a → a ≤ 1000000 →
        postLoans limit s xUserId (some a) (some t) now
          = (s, ⟨500, .error "Failed to create loan"⟩)) ∧
      postLoans limit s xUserId (some 1000000) (some t) now
        = (s, ⟨500, .error "Failed to create loan"⟩)) := by
  have hrej : ∀ a : ℚ, ¬ (0 < a ∧ a ≤ 1000000) →
      ∃ msg, postLoans limit s xUserId (some a) (some t) now
        = (s, ⟨400, .error msg⟩) := by
    intro a ha
    apply postLoans_reject_amount limit s xUserId u hu a _ now
    by_cases h0 : 0 < a
    · exact Or.inr (not_le.mp fun h => ha ⟨h0, h⟩)
    · exact Or.inl (not_lt.mp h0)
  refine ⟨hrej, hrej 0 (by norm_num), hrej (-1) (by norm_num), hrej 1000001 (by norm_num),
    ?_, ?_⟩
  · intro hlen
    have hacc : ∀ a : ℚ, 0 < a → a ≤ 1000000 →
        ∃ id, (postLoans limit s xUserId (some a) (some t) now).2
          = ⟨201, .loanCreated id .pending⟩ := by
      intro a h1 h2
      obtain ⟨id, _, hres⟩ :=
        postLoans_passed_within limit s xUserId u hu a t now h1 h2 (ne_of_gt ht) hlen
      exact ⟨id, by rw [hres]⟩
    refine ⟨fun a => ⟨fun h => ?_, fun h => hacc a h.1 h.2⟩,
      hacc 1000000 (by norm_num) (by norm_num)⟩
    by_contra hn
    obtain ⟨msg, hm⟩ := hrej a hn
    obtain ⟨id, hid⟩ := h
    rw [hm] at hid
    simp at hid
  · intro hlen
    have hbig : ∀ a : ℚ, 0 < a → a ≤ 1000000 →
        postLoans limit s xUserId (some a) (some t) now
          = (s, ⟨500, .error "Failed to create loan"⟩) :=
      fun a h1 h2 =>
        postLoans_passed_beyond limit s xUserId u hu a t now h1 h2 (ne_of_gt ht) hlen
    exact ⟨hbig, hbig 1000000 (by norm_num) (by norm_num)⟩

theorem postLoans_amount_bounds_witness :
    getUserFromHeader (run tinyLimit memoryStore crowdingRequests) (some "1") = some alice ∧
    (0 : ℚ) < 12 ∧
    tinyLimit < (run tinyLimit memoryStore crowdingRequests).loans.length ∧
    postLoans tinyLimit (run tinyLimit memoryStore crowdingRequests) (some "1")
        (some 1000000) (some 12) "2024-01-10T00:00:00.000Z"
      = (run tinyLimit memoryStore crowdingRequests,
         ⟨500, .error "Failed to create loan"⟩) :=
  ⟨by decide, by decide, by decide,
   ((postLoans_amount_bounds tinyLimit (run tinyLimit memoryStore crowdingRequests)
     (some "1") alice (by decide) 12 (by decide) "2024-01-10T00:00:00.000Z").2.2.2.2.2
       (by decide)).2⟩

/-! ## Who may record a repayment -/

/-- The repayment handler once the caller, the amount, the loan and the ownership check
have passed: the outcome is that of the id expression. -/
theorem postLoanRepayment_allowed (limit : Nat) (s : MemoryStore) (xUserId : Option String)
    (id : String) (caller : User) (loan : Loan) (a : ℚ) (now : String)
    (hcaller : getUserFromHeader s xUserId = some caller)
    (hloan : findLoan s id = some loan)
    (hauth : caller.id = loan.user_id ∨ caller.is_admin ≠ 0) (ha : 0 < a) :
    postLoanRepayment limit s xUserId id (some a) now
      = match nextId limit (s.repayments.map Repayment.id) with
        | none => (s, ⟨500, .error "Failed to record repayment"⟩)
        | some newId =>
          ({ s with repayments := s.repayments ++ [newRepayment newId loan a now] },
           ⟨201, .repaymentRecorded newId id a⟩) := by
  have ha0 : a ≠ 0 := ne_of_gt ha
  have hok : ¬ (¬ loan.user_id = caller.id ∧ caller.is_admin = 0) := by
    rintro ⟨h1, h2⟩
    rcases hauth with h | h
    · exact h1 h.symm
    · exact h h2
  simp only [postLoanRepayment, hcaller, hloan, truthyNum]
  simp [ha0, not_le.mpr ha, hok, newRepayment]

theorem postLoanRepayment_denied (limit : Nat) (s : MemoryStore) (xUserId : Option String)
    (id : String) (caller : User) (loan : Loan) (a : ℚ) (now : String)
    (hcaller : getUserFromHeader s xUserId = some caller)
    (hloan : findLoan s id = some loan)
    (hother : caller.id ≠ loan.user_id ∧ caller.is_admin = 0) (ha : 0 < a) :
    postLoanRepayment limit s xUserId id (some a) now
      = (s, ⟨403, .error "Not authorized for this loan"⟩) := by
  have ha0 : a ≠ 0 := ne_of_gt ha
  have h1s : ¬ loan.user_id = caller.id := fun h => hother.1 h.symm
  simp [postLoanRepayment, hcaller, hloan, truthyNum, ha0, not_le.mpr ha, h1s, hother.2]

/-- C5: when the route id finds a loan and the amount is positive, a caller who resolves
to a user with another id than the owner and `is_admin` falsy gets 403 and the store is
returned as given, on every store.  A caller who resolves to the owner of the loan or to
a user with `is_admin` set gets 201 and one repayment is pushed on a store whose number
of repayments is within the argument bound of the engine; on a store with more
repayments than the bound the id expression throws and the answer is 500 Failed to
record repayment with the store as given. -/
theorem postLoanRepayment_authorization (limit : Nat) (s : MemoryStore)
    (xUserId : Option String) (id : String) (caller : User) (loan : Loan) (a : ℚ)
    (now : String)
    (hcaller : getUserFromHeader s xUserId = some caller)
    (hloan : findLoan s id = some loan) (ha : 0 < a) :
    ((caller.id ≠ loan.user_id ∧ caller.is_admin = 0) →
      postLoanRepayment limit s xUserId id (some a) now
        = (s, ⟨403, .error "Not authorized for this loan"⟩)) ∧
    ((caller.id = loan.user_id ∨ caller.is_admin ≠ 0) →
      (s.repayments.length ≤ limit →
        ∃ newId, nextId limit (s.repayments.map Repayment.id) = some newId ∧
          postLoanRepayment limit s xUserId id (some a) now
            = ({ s with repayments := s.repayments ++ [newRepayment newId loan a now] },
               ⟨201, .repaymentRecorded newId id a⟩)) ∧
      (limit < s.repayments.length →
        postLoanRepayment limit s xUserId id (some a) now
          = (s, ⟨500, .error "Failed to record repayment"⟩))) := by
  refine ⟨fun h => postLoanRepayment_denied limit s xUserId id caller loan a now hcaller
    hloan h ha, fun hauth => ⟨fun hlen => ?_, fun hlen => ?_⟩⟩
  · obtain ⟨newId, hid⟩ :=
      nextId_of_le limit (s.repayments.map Repayment.id) (by simpa using hlen)
    refine ⟨newId, hid, ?_⟩
    rw [postLoanRepayment_allowed limit s xUserId id caller loan a now hcaller hloan hauth
      ha, hid]
  · rw [postLoanRepayment_allowed limit s xUserId id caller loan a now hcaller hloan hauth
      ha, nextId_of_lt limit (s.repayments.map Repayment.id) (by simpa using hlen)]

theorem postLoanRepayment_authorization_witness :
    getUserFromHeader (run tinyLimit memoryStore crowdingRequests) (some "1") = some alice ∧
    (findLoan (run tinyLimit memoryStore crowdingRequests) "1").map Loan.user_id
      = some alice.id ∧
    (0 : ℚ) < 5000 ∧
    tinyLimit < (run tinyLimit memoryStore crowdingRequests).repayments.length ∧
    postLoanRepayment tinyLimit (run tinyLimit memoryStore crowdingRequests) (some "1") "1"
        (some 5000) "2024-01-10T00:00:00.000Z"
      = (run tinyLimit memoryStore crowdingRequests,
         ⟨500, .error "Failed to record repayment"⟩) :=
  ⟨by decide, by decide, by decide, by decide,
   ((postLoanRepayment_authorization tinyLimit (run tinyLimit memoryStore crowdingRequests)
     (some "1") "1" alice
     ⟨1, 1, 25000, 6, .pending, none, none, "2024-01-04T00:00:00.000Z"⟩ 5000
     "2024-01-10T00:00:00.000Z" (by decide) (by decide) (by decide)).2
       (Or.inl (by decide))).2 (by decide)⟩

/-! ## Round trip of the ledger -/

/-- C17 (as stated, refuted): after register, submit and approve from the initial store,
user 1 repays 5000 on loan 1.  Through the route id 1 the body carries `loan_id` as the
string sent, and through the route id 01, which finds the same loan, the body carries
the string 01, which is not the id of the loan in any rendering. -/
theorem repayment_body_echoes_route_id :
    findLoan (run sampleLimit memoryStore approvedLoanScenario) "01" = some approvedLoanA ∧
    findLoan (run sampleLimit memoryStore approvedLoanScenario) "1" = some approvedLoanA ∧
    (postLoanRepayment sampleLimit (run sampleLimit memoryStore approvedLoanScenario)
        (some "1") "1" (some 5000) "2024-03-04T00:00:00.000Z").2
      = ⟨201, .repaymentRecorded 1 "1" 5000⟩ ∧
    (postLoanRepayment sampleLimit (run sampleLimit memoryStore approvedLoanScenario)
        (some "1") "01" (some 5000) "2024-03-04T00:00:00.000Z").2
      = ⟨201, .repaymentRecorded 1 "01" 5000⟩ ∧
    "01" ≠ Nat.repr approvedLoanA.id := by
  decide

/-- C17 (amended): let the route id find loan L, the caller resolve to the owner of L or
to a user with `is_admin` set, and the amount be positive.  On a store whose number of
repayments is within the argument bound of the engine the repayment is answered 201.
Whenever it is answered 201, the body carries the new id, the route id exactly as sent
(a string that `parseInt` maps to the id of L) and the amount; the listing through the
same route id before the repayment is exactly the stored repayments whose loan id is the
id of L; and the listing right after it, by the same caller, holds the repayment with
that new id, loan id the id of L and that amount together with exactly the rows listed
before (as a rearrangement, no order is stated), all of them with loan id the id of L. -/
theorem repayment_round_trip (limit : Nat) (s : MemoryStore) (xUserId : Option String)
    (id : String) (caller : User) (L : Loan) (a : ℚ) (now : String)
    (hcaller : getUserFromHeader s xUserId = some caller)
    (hL : findLoan s id = some L)
    (hauth : caller.id = L.user_id ∨ caller.is_admin ≠ 0) (ha : 0 < a) :
    (s.repayments.length ≤ limit →
      (postLoanRepayment limit s xUserId id (some a) now).2.status = 201) ∧
    ((postLoanRepayment limit s xUserId id (some a) now).2.status = 201 →
      ∃ newId before after,
        (postLoanRepayment limit s xUserId id (some a) now).2
          = ⟨201, .repaymentRecorded newId id a⟩ ∧
        parseInt id = some (L.id : Int) ∧
        (getLoanRepayments s xUserId id).2 = ⟨200, .repayments before⟩ ∧
        before = s.repayments.filter (fun r => decide (r.loan_id = (L.id : Int))) ∧
        (getLoanRepayments (postLoanRepayment limit s xUserId id (some a) now).1
          xUserId id).2 = ⟨200, .repayments after⟩ ∧
        after.Perm (⟨newId, (L.id : Int), a, now⟩ :: before) ∧
        ∀ r ∈ after, r.loan_id = (L.id : Int)) := by
  have hkey := postLoanRepayment_allowed limit s xUserId id caller L a now hcaller hL hauth ha
  have hparse := parseInt_eq_of_find s id L hL
  constructor
  · intro hlen
    obtain ⟨newId, hid⟩ :=
      nextId_of_le limit (s.repayments.map Repayment.id) (by simpa using hlen)
    rw [hkey, hid]
  · intro hs
    cases hid : nextId limit (s.repayments.map Repayment.id) with
    | none =>
      rw [hkey, hid] at hs
      simp at hs
    | some newId =>
      rw [hid] at hkey
      have hbefore : (getLoanRepayments s xUserId id).2
          = ⟨200, .repayments
              (s.repayments.filter (fun r => decide (r.loan_id = (L.id : Int))))⟩ := by
        simp only [getLoanRepayments, hcaller]
        simp [hparse]
      have hc2 : getUserFromHeader
          { s with repayments := s.repayments ++ [newRepayment newId L a now] } xUserId
            = some caller := hcaller
      have hafter : (getLoanRepayments
          { s with repayments := s.repayments ++ [newRepayment newId L a now] }
            xUserId id).2
          = ⟨200, .repayments
              (s.repayments.filter (fun r => decide (r.loan_id = (L.id : Int)))
                ++ [⟨newId, (L.id : Int), a, now⟩])⟩ := by
        simp only [getLoanRepayments, hc2, List.filter_append]
        simp [hparse, newRepayment]
      rw [hkey]
      refine ⟨newId, _, _, rfl, hparse, hbefore, rfl, hafter,
        List.perm_append_singleton _ _, ?_⟩
      intro r hr
      rcases List.mem_append.mp hr with h | h
      · simpa using (List.mem_filter.mp h).2
      · rw [List.mem_singleton] at h
        rw [h]

theorem repayment_round_trip_witness :
    getUserFromHeader (run sampleLimit memoryStore approvedLoanScenario) (some "1")
      = some userA ∧
    findLoan (run sampleLimit memoryStore approvedLoanScenario) "1" = some approvedLoanA ∧
    (userA.id = approvedLoanA.user_id ∨ userA.is_admin ≠ 0) ∧ (0 : ℚ) < 5000 ∧
    (run sampleLimit memoryStore approvedLoanScenario).repayments.length ≤ sampleLimit ∧
    (postLoanRepayment sampleLimit (run sampleLimit memoryStore approvedLoanScenario)
        (some "1") "1" (some 5000) "2024-03-04T00:00:00.000Z").2
      = ⟨201, .repaymentRecorded 1 "1" 5000⟩ ∧
    (getLoanRepayments (postLoanRepayment sampleLimit
        (run sampleLimit memoryStore approvedLoanScenario) (some "1") "1" (some 5000)
        "2024-03-04T00:00:00.000Z").1 (some "1") "1").2
      = ⟨200, .repayments [⟨1, 1, 5000, "2024-03-04T00:00:00.000Z"⟩]⟩ ∧
    (postLoanRepayment sampleLimit (run sampleLimit memoryStore approvedLoanScenario)
        (some "1") "1" (some 5000) "2024-03-04T00:00:00.000Z").2.status = 201 :=
  ⟨by decide, by decide, Or.inl (by decide), by decide, by decide, by decide, by decide,
   (repayment_round_trip sampleLimit (run sampleLimit memoryStore approvedLoanScenario)
     (some "1") "1" userA approvedLoanA 5000 "2024-03-04T00:00:00.000Z" (by decide)
     (by decide) (Or.inl (by decide)) (by decide)).1 (by decide)⟩

/-! ## Runs that stay within the argument bound -/

theorem nextId_congr (l1 l2 : Nat) (ids : List Nat) (h1 : ids.length ≤ l1)
    (h2 : ids.length ≤ l2) : nextId l1 ids = nextId l2 ids := by
  unfold nextId
  rw [if_pos h1, if_pos h2]

/-- On a store whose three lists are within two bounds, a request is served alike under
both. -/
theorem handle_congr (l1 l2 : Nat) (s : MemoryStore) (r : Request) (n : Nat)
    (hs : s.users.length ≤ n ∧ s.loans.length ≤ n ∧ s.repayments.length ≤ n)
    (h1 : n ≤ l1) (h2 : n ≤ l2) : handle l1 s r = handle l2 s r := by
  obtain ⟨hu, hl, hp⟩ := hs
  cases r with
  | register name email password now =>
    simp only [handle, postRegister]
    rw [nextId_congr l1 l2 (s.users.map User.id) (by simp; omega) (by simp; omega)]
  | submitLoan xUserId amount term_months now =>
    simp only [handle, postLoans]
    rw [nextId_congr l1 l2 (s.loans.map Loan.id) (by simp; omega) (by simp; omega)]
  | repayment xUserId id amount now =>
    simp only [handle, postLoanRepayment]
    rw [nextId_congr l1 l2 (s.repayments.map Repayment.id) (by simp; omega)
      (by simp; omega)]
  | login email password => rfl
  | listLoans xUserId xAdmin => rfl
  | decision xUserId xAdmin id action now => rfl
  | listRepayments xUserId id => rfl

/-- A request lengthens each list of the store by at most one record. -/
theorem handle_lengths (limit : Nat) (s : MemoryStore) (r : Request) (n : Nat)
    (hs : s.users.length ≤ n ∧ s.loans.length ≤ n ∧ s.repayments.length ≤ n) :
    (handle limit s r).1.users.length ≤ n + 1 ∧
    (handle limit s r).1.loans.length ≤ n + 1 ∧
    (handle limit s r).1.repayments.length ≤ n + 1 := by
  obtain ⟨hu, hl, hp⟩ := hs
  rcases handle_effect limit s r with h | ⟨_, h, _⟩ | ⟨_, h, _⟩ |
    ⟨_, _, _, _, _, _, h⟩ | ⟨_, h, _⟩
  · rw [h]
    exact ⟨by omega, by omega, by omega⟩
  all_goals rw [h]
  all_goals simp only [List.length_append, List.length_singleton, updateFirstLoan_length]
  all_goals exact ⟨by omega, by omega, by omega⟩

/-- A run that starts with at most `n` records of each kind and is short enough for two
bounds ends in the same store under both. -/
theorem run_congr (l1 l2 : Nat) (rs : List Request) :
    ∀ (s : MemoryStore) (n : Nat),
      (s.users.length ≤ n ∧ s.loans.length ≤ n ∧ s.repayments.length ≤ n) →
      n + rs.length ≤ l1 → n + rs.length ≤ l2 → run l1 s rs = run l2 s rs := by
  induction rs with
  | nil => intro s n _ _ _; rfl
  | cons r rs ih =>
    intro s n hs h1 h2
    simp only [List.length_cons] at h1 h2
    rw [run_cons, run_cons, handle_congr l1 l2 s r n hs (by omega) (by omega)]
    exact ih _ (n + 1) (handle_lengths l2 s r n hs) (by omega) (by omega)

/-- From the initial store, a run of at most as many requests as the bound ends in the
store it ends in under the bound of the worked examples. -/
theorem run_eq_sample (limit : Nat) (rs : List Request) (h : rs.length ≤ limit)
    (hsample : rs.length ≤ sampleLimit) :
    run limit memoryStore rs = run sampleLimit memoryStore rs :=
  run_congr limit sampleLimit rs memoryStore 0 ⟨by simp [memoryStore], by simp [memoryStore],
    by simp [memoryStore]⟩ (by omega) (by omega)

/-! ## Listing the repayments of a loan -/

/-- C2: with one registered user and no loan at all, listing the repayments of loan
999999 as that user answers 200 with the empty list, not 404; on no store, caller and
route id does the handler answer 404; and the store of this example is the same under
every argument bound of at least 1. -/
theorem getLoanRepayments_unknown_loan_is_200 :
    (run sampleLimit memoryStore [registerAlice]).loans = [] ∧
    findLoan (run sampleLimit memoryStore [registerAlice]) "999999" = none ∧
    (getLoanRepayments (run sampleLimit memoryStore [registerAlice]) (some "1") "999999").2
      = ⟨200, .repayments []⟩ ∧
    (∀ (s : MemoryStore) (xUserId : Option String) (id : String),
      (getLoanRepayments s xUserId id).2.status ≠ 404) ∧
    ∀ limit : Nat, 1 ≤ limit →
      run limit memoryStore [registerAlice] = run sampleLimit memoryStore [registerAlice] := by
  refine ⟨by decide, by decide, by decide, ?_,
    fun limit h => run_eq_sample limit _ h (by decide)⟩
  intro s xUserId id
  unfold getLoanRepayments
  split <;> simp

/-! ## Order of the listings -/

/-- C7: after one registration, two loan submissions and two repayments on loan 1, each
of the three listings answers in insertion order, the record with id 1 before the record
with id 2, that is oldest first; the store of this example is the same under every
argument bound of at least 5. -/
theorem listings_are_oldest_first :
    (getLoans (run sampleLimit memoryStore twoLoansTwoRepayments) (some "1") none).2
      = ⟨200, .loans
          [⟨1, 1, 25000, 6, .pending, none, none, "2024-01-04T00:00:00.000Z"⟩,
           ⟨2, 1, 50000, 12, .pending, none, none, "2024-01-05T00:00:00.000Z"⟩]⟩ ∧
    (getLoans (run sampleLimit memoryStore twoLoansTwoRepayments) none (some "true")).2
      = ⟨200, .loansWithApplicant
          [⟨⟨1, 1, 25000, 6, .pending, none, none, "2024-01-04T00:00:00.000Z"⟩,
            some "Alice", some "alice@example.com"⟩,
           ⟨⟨2, 1, 50000, 12, .pending, none, none, "2024-01-05T00:00:00.000Z"⟩,
            some "Alice", some "alice@example.com"⟩]⟩ ∧
    (getLoanRepayments (run sampleLimit memoryStore twoLoansTwoRepayments) (some "1") "1").2
      = ⟨200, .repayments
          [⟨1, 1, 10000, "2024-01-06T00:00:00.000Z"⟩,
           ⟨2, 1, 5000, "2024-01-07T00:00:00.000Z"⟩]⟩ ∧
    ∀ limit : Nat, 5 ≤ limit →
      run limit memoryStore twoLoansTwoRepayments
        = run sampleLimit memoryStore twoLoansTwoRepayments := by
  exact ⟨by decide, by decide, by decide,
    fun limit h => run_eq_sample limit _ h (by decide)⟩

/-! ## The two backends -/

/-- C23: after one registration and two submissions the memory branch of the listing for
user 1 answers loan 1 then loan 2, while the query of the durable branch over the same
two rows, ordered by `created_at` descending, yields loan 2 then loan 1; the two bodies
differ; the store of this example is the same under every argument bound of at least 5. -/
theorem backends_differ_on_listing_order :
    (getLoans (run sampleLimit memoryStore twoLoansTwoRepayments) (some "1") none).2.body
      = .loans
          [⟨1, 1, 25000, 6, .pending, none, none, "2024-01-04T00:00:00.000Z"⟩,
           ⟨2, 1, 50000, 12, .pending, none, none, "2024-01-05T00:00:00.000Z"⟩] ∧
    selectLoansByUser (run sampleLimit memoryStore twoLoansTwoRepayments).loans 1
      = [⟨2, 1, 50000, 12, .pending, none, none, "2024-01-05T00:00:00.000Z"⟩,
         ⟨1, 1, 25000, 6, .pending, none, none, "2024-01-04T00:00:00.000Z"⟩] ∧
    (getLoans (run sampleLimit memoryStore twoLoansTwoRepayments) (some "1") none).2.body
      ≠ .loans
          (selectLoansByUser (run sampleLimit memoryStore twoLoansTwoRepayments).loans 1) ∧
    ∀ limit : Nat, 5 ≤ limit →
      run limit memoryStore twoLoansTwoRepayments
        = run sampleLimit memoryStore twoLoansTwoRepayments := by
  exact ⟨by decide, by decide, by decide,
    fun limit h => run_eq_sample limit _ h (by decide)⟩

end LoanManagement
